import Mathlib

/-!
Verification development for the telemetry codec in `src/lib/data-response.ts` of the
vex-jetson-web-dashboard repository.  The codec turns untyped, recursively nested decoded
values (the output of a generic binary object-notation decoder) into a typed
`DataResponse` snapshot and encodes typed records back into that untyped shape.

The shallow embedding models JavaScript runtime values as the inductive `Value`,
JavaScript numbers as the inductive `JNum` (a finite rational, NaN, or a signed
infinity), and JavaScript object properties that can be missing, `null`, or a value as
`JProp`.  Every function below is a direct translation of the correspondingly named
function of the source file; deliberate modelling choices (for example how the model
treats inputs on which the JavaScript engine would throw inside a branch no claim
exercises) are stated in the doc comment of the function concerned.
-/

namespace VexCodec

/-- A JavaScript number: a finite value (modelled as an exact rational), NaN, or a signed
infinity.  JavaScript doubles are a subset of the rationals, so every run-time value of
the source program is representable; the model does not round arithmetic results to
binary64, which only widens the domain the theorems quantify over. -/
inductive JNum where
  | fin (q : ℚ)
  | nan
  | inf (neg : Bool)
deriving DecidableEq, Repr

/-- Truncation toward zero, as used by JavaScript ToInteger/ToInt32. -/
def jsTrunc (q : ℚ) : ℤ := if 0 ≤ q then ⌊q⌋ else ⌈q⌉

/-- Whether the number is NaN (JavaScript `Number.isNaN`). -/
def JNum.isNaNb : JNum → Bool
  | .nan => true
  | _ => false

/-- Whether the number is finite (JavaScript `Number.isFinite`). -/
def JNum.isFiniteB : JNum → Bool
  | .fin _ => true
  | _ => false

/-- JavaScript ToUint32: truncate toward zero and reduce modulo 2^32; NaN and the
infinities map to 0. -/
def toUint32 : JNum → ℕ
  | .fin q => ((jsTrunc q) % (4294967296 : ℤ)).toNat
  | _ => 0

/-- JavaScript ToUint8 (used by `Uint8Array.from`): truncate toward zero and reduce
modulo 2^8; NaN and the infinities map to 0. -/
def toUint8 : JNum → ℕ
  | .fin q => ((jsTrunc q) % (256 : ℤ)).toNat
  | _ => 0

/-- Fractional decimal digits of a rational in [0, 1), with fuel.  JavaScript prints the
shortest decimal that round-trips through binary64; for the dyadic rationals that arise
from actual doubles this agrees with the exact expansion printed here (the fuel of 64
digits is never exhausted by a binary64 fraction). -/
def ratFracDigits : ℕ → ℚ → String
  | 0, _ => ""
  | fuel + 1, q =>
    if q = 0 then ""
    else
      let q10 := q * 10
      let d := (⌊q10⌋).toNat
      toString d ++ ratFracDigits fuel (q10 - ⌊q10⌋)

/-- JavaScript number-to-string conversion (`String(n)`): exact for NaN, the infinities
and integers; non-integral values print sign, integer part and fractional digits. -/
def jnumToString : JNum → String
  | .nan => "NaN"
  | .inf b => if b then "-Infinity" else "Infinity"
  | .fin q =>
    if q.den = 1 then toString q.num
    else
      let sgn := if q < 0 then "-" else ""
      let a := |q|
      sgn ++ toString (⌊a⌋ : ℤ) ++ "." ++ ratFracDigits 64 (a - (⌊a⌋ : ℤ))

/-- Whitespace as recognised by JavaScript string trimming / `Number(string)`. -/
def isSpaceChar (c : Char) : Bool :=
  c == ' ' || c == '\t' || c == '\n' || c == '\r' || c == '\x0b' || c == '\x0c'

/-- Decimal digit value of a character. -/
def digitVal (c : Char) : Option ℕ :=
  if c.isDigit then some (c.toNat - 48) else none

/-- Hexadecimal digit value of a character. -/
def hexVal (c : Char) : Option ℕ :=
  if c.isDigit then some (c.toNat - 48)
  else if 'a' ≤ c ∧ c ≤ 'f' then some (c.toNat - 87)
  else if 'A' ≤ c ∧ c ≤ 'F' then some (c.toNat - 55)
  else none

/-- Octal digit value of a character. -/
def octVal (c : Char) : Option ℕ :=
  if '0' ≤ c ∧ c ≤ '7' then some (c.toNat - 48) else none

/-- Binary digit value of a character. -/
def binVal (c : Char) : Option ℕ :=
  if c == '0' then some 0 else if c == '1' then some 1 else none

/-- ASCII lower-casing of one character (JavaScript `toLowerCase` restricted to the
ASCII range, which is all the codec compares). -/
def charToLower (c : Char) : Char :=
  if 'A' ≤ c ∧ c ≤ 'Z' then Char.ofNat (c.toNat + 32) else c

/-- ASCII lower-casing of a string. -/
def strToLower (s : String) : String := String.mk (s.toList.map charToLower)

/-- JavaScript `String.prototype.trim` (ASCII whitespace). -/
def strTrim (s : String) : String :=
  String.mk (((s.toList.dropWhile isSpaceChar).reverse.dropWhile isSpaceChar).reverse)

/-- Parse a non-empty run of digits in the given base; `none` if any character is not a
digit of the base. -/
def parseDigitsAux (valOf : Char → Option ℕ) (base : ℕ) : List Char → ℕ → Option ℕ
  | [], acc => some acc
  | c :: rest, acc =>
    match valOf c with
    | some d => parseDigitsAux valOf base rest (acc * base + d)
    | none => none

/-- Parse a digit run that must be non-empty. -/
def parseDigits (valOf : Char → Option ℕ) (base : ℕ) (cs : List Char) : Option ℕ :=
  if cs.isEmpty then none else parseDigitsAux valOf base cs 0

/-- Parse the exponent part of a decimal literal (after `e`/`E`). -/
def parseExp (cs : List Char) : Option ℤ :=
  let (sgn, ds) : ℤ × List Char :=
    match cs with
    | '+' :: r => (1, r)
    | '-' :: r => (-1, r)
    | r => (1, r)
  match parseDigits digitVal 10 ds with
  | some n => some (sgn * (n : ℤ))
  | none => none

/-- Parse an unsigned decimal literal `digits [. digits] [e[+-]digits]`, requiring at
least one digit in the integer or fractional part (JavaScript accepts `12.`, `.5`,
`1e2`). -/
def parseDecimal (cs : List Char) : Option ℚ :=
  let ip := cs.takeWhile Char.isDigit
  let r1 := cs.dropWhile Char.isDigit
  let hasDot : Bool := match r1 with | '.' :: _ => true | _ => false
  let r1' := if hasDot then r1.tail else r1
  let fp := if hasDot then r1'.takeWhile Char.isDigit else []
  let r2 := if hasDot then r1'.dropWhile Char.isDigit else r1'
  if ip.isEmpty && fp.isEmpty then none
  else
    let intVal : ℕ := (parseDigitsAux digitVal 10 ip 0).getD 0
    let fracNum : ℕ := (parseDigitsAux digitVal 10 fp 0).getD 0
    let base : ℚ := (intVal : ℚ) + (fracNum : ℚ) / (10 : ℚ) ^ fp.length
    match r2 with
    | [] => some base
    | 'e' :: rest => (parseExp rest).map (fun e => base * (10 : ℚ) ^ e)
    | 'E' :: rest => (parseExp rest).map (fun e => base * (10 : ℚ) ^ e)
    | _ => none

/-- JavaScript `Number(string)`: trim whitespace, empty string is 0, recognise signed
`Infinity`, unsigned `0x`/`0o`/`0b` radix literals, and signed decimal literals;
everything else is NaN.  The model keeps the parsed rational exact instead of rounding
to binary64. -/
def jsStrToNum (s : String) : JNum :=
  let cs := ((s.toList.dropWhile isSpaceChar).reverse.dropWhile isSpaceChar).reverse
  match cs with
  | [] => .fin 0
  | _ =>
    let (neg, body) : Bool × List Char :=
      match cs with
      | '-' :: r => (true, r)
      | '+' :: r => (false, r)
      | r => (false, r)
    let signed : Bool := cs.length != body.length
    match body with
    | ['I', 'n', 'f', 'i', 'n', 'i', 't', 'y'] => .inf neg
    | '0' :: 'x' :: r =>
      if signed then .nan else
        match parseDigits hexVal 16 r with
        | some n => .fin (n : ℚ)
        | none => .nan
    | '0' :: 'X' :: r =>
      if signed then .nan else
        match parseDigits hexVal 16 r with
        | some n => .fin (n : ℚ)
        | none => .nan
    | '0' :: 'o' :: r =>
      if signed then .nan else
        match parseDigits octVal 8 r with
        | some n => .fin (n : ℚ)
        | none => .nan
    | '0' :: 'O' :: r =>
      if signed then .nan else
        match parseDigits octVal 8 r with
        | some n => .fin (n : ℚ)
        | none => .nan
    | '0' :: 'b' :: r =>
      if signed then .nan else
        match parseDigits binVal 2 r with
        | some n => .fin (n : ℚ)
        | none => .nan
    | '0' :: 'B' :: r =>
      if signed then .nan else
        match parseDigits binVal 2 r with
        | some n => .fin (n : ℚ)
        | none => .nan
    | _ =>
      match parseDecimal body with
      | some q => .fin (if neg then -q else q)
      | none => .nan

/-- Kinds of JavaScript typed arrays supported by the codec (`SupportedTypedArray`);
`u8` is `Uint8Array`. -/
inductive TK where
  | f32 | f64 | i32 | i16 | i8 | u32 | u16 | u8
deriving DecidableEq, Repr

/-- Key of a JavaScript `Map` as produced by the byte-stream decoder: after the one-time
key-coercion patch, keys are text or numbers. -/
inductive MKey where
  | kstr (s : String)
  | knum (n : JNum)
deriving DecidableEq, Repr

/-- A JavaScript runtime value as it can reach the codec: null, undefined, boolean,
number, text, `ArrayBuffer` (`vbuf`), `DataView` (`vview`), a typed array over raw bytes
(`vtyped`, with `vtyped .u8` standing for `Uint8Array`), an array, a `Map`, or a plain
object (ordered key-value entries, as JavaScript objects preserve insertion order). -/
inductive Value where
  | vnull
  | vundef
  | vbool (b : Bool)
  | vnum (n : JNum)
  | vstr (s : String)
  | vbuf (bs : List ℕ)
  | vview (bs : List ℕ)
  | vtyped (k : TK) (bs : List ℕ)
  | varr (vs : List Value)
  | vmap (es : List (MKey × Value))
  | vobj (es : List (String × Value))
deriving Repr

/-- Element width in bytes of a typed-array kind. -/
def TK.width : TK → ℕ
  | .f64 => 8
  | .f32 => 4
  | .i32 => 4
  | .u32 => 4
  | .i16 => 2
  | .u16 => 2
  | .i8 => 1
  | .u8 => 1

/-- Little-endian interpretation of a byte list as an unsigned integer (each entry is a
byte, reduced modulo 256). -/
def bytesToNatLE (l : List ℕ) : ℕ := l.foldr (fun b acc => b % 256 + 256 * acc) 0

/-- Two's-complement reinterpretation of a `w`-byte unsigned value. -/
def toSigned (w : ℕ) (x : ℕ) : ℤ :=
  if x < 2 ^ (w * 8 - 1) then (x : ℤ) else (x : ℤ) - 2 ^ (w * 8)

/-- IEEE-754 binary32 value of a 32-bit pattern, as a `JNum`. -/
def f32FromBits (b : ℕ) : JNum :=
  let sign : ℕ := b / 2 ^ 31 % 2
  let ex : ℕ := b / 2 ^ 23 % 2 ^ 8
  let m : ℕ := b % 2 ^ 23
  if ex = 255 then (if m = 0 then .inf (sign == 1) else .nan)
  else
    let mag : ℚ :=
      if ex = 0 then (m : ℚ) * (2 : ℚ) ^ (-149 : ℤ)
      else ((2 ^ 23 + m : ℕ) : ℚ) * (2 : ℚ) ^ ((ex : ℤ) - 150)
    .fin (if sign == 1 then -mag else mag)

/-- IEEE-754 binary64 value of a 64-bit pattern, as a `JNum`. -/
def f64FromBits (b : ℕ) : JNum :=
  let sign : ℕ := b / 2 ^ 63 % 2
  let ex : ℕ := b / 2 ^ 52 % 2 ^ 11
  let m : ℕ := b % 2 ^ 52
  if ex = 2047 then (if m = 0 then .inf (sign == 1) else .nan)
  else
    let mag : ℚ :=
      if ex = 0 then (m : ℚ) * (2 : ℚ) ^ (-1074 : ℤ)
      else ((2 ^ 52 + m : ℕ) : ℚ) * (2 : ℚ) ^ ((ex : ℤ) - 1075)
    .fin (if sign == 1 then -mag else mag)

/-- Decode one little-endian element chunk of a typed array. -/
def decodeElem (k : TK) (chunk : List ℕ) : JNum :=
  match k with
  | .u8 => .fin (bytesToNatLE chunk : ℚ)
  | .u16 => .fin (bytesToNatLE chunk : ℚ)
  | .u32 => .fin (bytesToNatLE chunk : ℚ)
  | .i8 => .fin (toSigned 1 (bytesToNatLE chunk) : ℚ)
  | .i16 => .fin (toSigned 2 (bytesToNatLE chunk) : ℚ)
  | .i32 => .fin (toSigned 4 (bytesToNatLE chunk) : ℚ)
  | .f32 => f32FromBits (bytesToNatLE chunk)
  | .f64 => f64FromBits (bytesToNatLE chunk)

/-- `.length` of a typed array over the given byte buffer.  The JavaScript typed-array
constructors (reached through `createTypedArray` in `decodeNumpyContainer`) throw a
RangeError when the buffer length is not a multiple of the element width, and with no
try/catch in the module the throw propagates out; the model floors instead.  Every
theorem about multi-byte container decode therefore carries an explicit alignment
hypothesis (`tk.width ∣ bytes.length`) confining it to the throw-free domain; the
width-1 dtypes (`u8`/`i8`) are always aligned. -/
def typedLen (k : TK) (bs : List ℕ) : ℕ := bs.length / k.width

/-- Element `i` of a typed array over the given bytes (little-endian). -/
def typedGet (k : TK) (bs : List ℕ) (i : ℕ) : JNum :=
  decodeElem k ((bs.drop (i * k.width)).take k.width)

/-- All elements of a typed array, in order. -/
def typedToList (k : TK) (bs : List ℕ) : List JNum :=
  (List.range (typedLen k bs)).map (typedGet k bs)

/-- Exponent `e` with `2 ^ e ≤ q < 2 ^ (e + 1)` for a positive rational. -/
def ratLog2 (q : ℚ) : ℤ :=
  let e0 : ℤ := (Nat.log2 q.num.toNat : ℤ) - (Nat.log2 q.den : ℤ)
  if (2 : ℚ) ^ (e0 + 1) ≤ q then e0 + 1
  else if (2 : ℚ) ^ e0 ≤ q then e0
  else e0 - 1

/-- Round a rational to the nearest integer, ties to even. -/
def roundHalfEven (x : ℚ) : ℤ :=
  let f := ⌊x⌋
  let r := x - (f : ℚ)
  if r < 1 / 2 then f
  else if (1 : ℚ) / 2 < r then f + 1
  else if f % 2 = 0 then f else f + 1

/-- IEEE-754 binary32 bit pattern nearest a rational (round to nearest, ties to even),
modelling the conversion performed by `Float32Array.from`. -/
def ratToF32bits (q : ℚ) : ℕ :=
  if q = 0 then 0
  else
    let sbit : ℕ := if q < 0 then 2 ^ 31 else 0
    let a := |q|
    let e := max (ratLog2 a) (-126)
    let m := (roundHalfEven (a * (2 : ℚ) ^ ((23 : ℤ) - e))).toNat
    let e2 : ℤ := if m = 2 ^ 24 then e + 1 else e
    let m2 : ℕ := if m = 2 ^ 24 then 2 ^ 23 else m
    if 127 < e2 then sbit + 0x7F800000
    else if e2 = -126 ∧ m2 < 2 ^ 23 then sbit + m2
    else sbit + (e2 + 127).toNat * 2 ^ 23 + (m2 - 2 ^ 23)

/-- Binary32 bit pattern of a `JNum` (`Float32Array` element storage). -/
def jnumToF32bits : JNum → ℕ
  | .nan => 0x7FC00000
  | .inf neg => (if neg then 0x80000000 else 0) + 0x7F800000
  | .fin q => ratToF32bits q

/-- Little-endian byte expansion of an unsigned integer into `w` bytes. -/
def natToBytesLE (w : ℕ) (x : ℕ) : List ℕ :=
  (List.range w).map (fun i => x / 256 ^ i % 256)

/-- Raw little-endian bytes of a `Float32Array` built from the given numbers
(`typedArrayToBytes(Float32Array.from(values))`). -/
def f32BytesOfList (l : List JNum) : List ℕ :=
  (l.map (fun n => natToBytesLE 4 (jnumToF32bits n))).flatten

/-- Base64 alphabet. -/
def b64Chars : List Char :=
  "ABCDEFGHIJKLMNOPQRSTUVWXYZabcdefghijklmnopqrstuvwxyz0123456789+/".toList

/-- Base64 character of a 6-bit value. -/
def b64Char (n : ℕ) : Char := b64Chars.getD n '?'

/-- Encode bytes as base64 characters, three bytes per quad, with `=` padding. -/
def b64EncodeChunks : List ℕ → List Char
  | a :: b :: c :: rest =>
    let x := a % 256 * 65536 + b % 256 * 256 + c % 256
    b64Char (x / 262144) :: b64Char (x / 4096 % 64) :: b64Char (x / 64 % 64) ::
      b64Char (x % 64) :: b64EncodeChunks rest
  | [a, b] =>
    let x := a % 256 * 65536 + b % 256 * 256
    [b64Char (x / 262144), b64Char (x / 4096 % 64), b64Char (x / 64 % 64), '=']
  | [a] =>
    let x := a % 256 * 65536
    [b64Char (x / 262144), b64Char (x / 4096 % 64), '=', '=']
  | [] => []

/-- `bytesToBase64`: empty input gives the empty string, otherwise standard base64. -/
def bytesToBase64 (bs : List ℕ) : String :=
  if bs.isEmpty then "" else String.mk (b64EncodeChunks bs)

/-- Sextet value of a base64 character, `none` for non-alphabet characters. -/
def b64Val (c : Char) : Option ℕ := b64Chars.findIdx? (fun d => d == c)

/-- Reassemble bytes from base64 sextet values, four sextets per three bytes; a trailing
group of three sextets yields two bytes, of two sextets one byte. -/
def b64DecodeQuads : List ℕ → List ℕ
  | a :: b :: c :: d :: rest =>
    (a * 4 + b / 16) :: (b % 16 * 16 + c / 4) :: (c % 4 * 64 + d) :: b64DecodeQuads rest
  | [a, b, c] => [a * 4 + b / 16, b % 16 * 16 + c / 4]
  | [a, b] => [a * 4 + b / 16]
  | _ => []

/-- `base64ToBytes`, modelling the forgiving Node `Buffer.from(s, "base64")` path:
non-alphabet characters (including `=` padding) are skipped and a trailing partial group
is decoded as far as whole bytes go. -/
def base64ToBytes (s : String) : List ℕ :=
  b64DecodeQuads (s.toList.filterMap b64Val)

/-- Whether `pre` is a prefix of `l`. -/
def listIsPrefix (pre l : List Char) : Bool :=
  match pre, l with
  | [], _ => true
  | _ :: _, [] => false
  | a :: pr, b :: rest => a == b && listIsPrefix pr rest

/-- Whether `needle` occurs contiguously inside `hay`. -/
def listHasInfix (hay needle : List Char) : Bool :=
  match hay with
  | [] => needle.isEmpty
  | _ :: rest => listIsPrefix needle hay || listHasInfix rest needle

/-- JavaScript `hay.includes(needle)`. -/
def strIncludes (hay needle : String) : Bool :=
  listHasInfix hay.toList needle.toList

/-- JavaScript truthiness of a value. -/
def truthy : Value → Bool
  | .vnull => false
  | .vundef => false
  | .vbool b => b
  | .vnum n =>
    match n with
    | .nan => false
    | .fin q => q != 0
    | .inf _ => true
  | .vstr s => !s.isEmpty
  | _ => true

mutual

/-- JavaScript `String(value)` coercion.  Arrays print their elements joined by commas
with null/undefined entries blank; `Map`, `ArrayBuffer`, `DataView` and plain objects
print their default `Object.prototype.toString` tags; typed arrays print their elements
joined by commas. -/
def jsToString : Value → String
  | .vnull => "null"
  | .vundef => "undefined"
  | .vbool b => if b then "true" else "false"
  | .vnum n => jnumToString n
  | .vstr s => s
  | .varr vs => jsArrJoin vs
  | .vtyped k bs => String.intercalate "," ((typedToList k bs).map jnumToString)
  | .vmap _ => "[object Map]"
  | .vbuf _ => "[object ArrayBuffer]"
  | .vview _ => "[object DataView]"
  | .vobj _ => "[object Object]"
termination_by v => (sizeOf v, 0)
decreasing_by all_goals (first | omega | (simp_wf; omega))

/-- Join array elements with commas for `Array.prototype.toString`. -/
def jsArrJoin : List Value → String
  | [] => ""
  | [v] => jsArrElemStr v
  | v :: rest => jsArrElemStr v ++ "," ++ jsArrJoin rest
termination_by l => (sizeOf l, 0)
decreasing_by all_goals (first | omega | (simp_wf; omega))

/-- One array element for `Array.prototype.toString`: null and undefined print empty. -/
def jsArrElemStr : Value → String
  | .vnull => ""
  | .vundef => ""
  | v => jsToString v
termination_by v => (sizeOf v, 1)
decreasing_by all_goals (first | omega | (simp_wf; omega))

end

/-- JavaScript `Number(value)` coercion: via the string form for objects and arrays,
matching ToPrimitive for the value shapes that reach the codec. -/
def jsToNumber : Value → JNum
  | .vnull => .fin 0
  | .vundef => .nan
  | .vbool b => .fin (if b then 1 else 0)
  | .vnum n => n
  | .vstr s => jsStrToNum s
  | v => jsStrToNum (jsToString v)

/-- Element conversion performed by `Uint8Array.from`. -/
def jsToUint8 (v : Value) : ℕ := toUint8 (jsToNumber v)

/-- Whether a plain object has the given key (`key in source` for own keys). -/
def hasKey (es : List (String × Value)) (k : String) : Bool :=
  es.any (fun kv => kv.1 == k)

/-- First value stored under the key, mirroring JavaScript property lookup (objects hold
each key once; on the model's lists the first occurrence wins). -/
def getKey : List (String × Value) → String → Option Value
  | [], _ => none
  | (k', v) :: rest, k => if k' = k then some v else getKey rest k

/-- JavaScript property assignment `obj[k] = v` on an entry list: an existing key keeps
its position and gets the new value, a new key is appended. -/
def objUpsert : List (String × Value) → String → Value → List (String × Value)
  | [], k, v => [(k, v)]
  | (k', v') :: rest, k, v =>
    if k' = k then (k', v) :: rest else (k', v') :: objUpsert rest k v

/-- `isNumpyContainer`: the object has `data`, `type` and `nd` keys. -/
def containerKeys (es : List (String × Value)) : Bool :=
  hasKey es "data" && hasKey es "type" && hasKey es "nd"

/-- Dtype-tag recognition of `createTypedArray` (lower-cased tag). -/
def parseDtype (dtype : String) : Option TK :=
  match strToLower dtype with
  | "<f4" => some .f32
  | "float32" => some .f32
  | "<f8" => some .f64
  | "float64" => some .f64
  | "<i4" => some .i32
  | "int32" => some .i32
  | "<i2" => some .i16
  | "int16" => some .i16
  | "<i1" => some .i8
  | "|i1" => some .i8
  | "int8" => some .i8
  | "<u4" => some .u32
  | "uint32" => some .u32
  | "<u2" => some .u16
  | "uint16" => some .u16
  | "<u1" => some .u8
  | "|u1" => some .u8
  | "uint8" => some .u8
  | _ => none

/-- `toUint8Array`: `Uint8Array` and other typed arrays contribute their raw bytes, an
`ArrayBuffer` its bytes, an array its elements via ToUint8, everything else (including a
`DataView`, which matches none of the source's branches) the empty buffer. -/
def toUint8ArrayV : Value → List ℕ
  | .vtyped _ bs => bs
  | .vbuf bs => bs
  | .varr vs => vs.map jsToUint8
  | _ => []

/-- Dimension value used by `reshapeTypedArray`: a non-negative finite number truncated
toward zero; for anything else the JavaScript engine would throw inside `new Array` or
produce an empty slice, and the model uses size 0.  No claim exercises a non-natural
dimension. -/
def sizeNatOfDim (v : Value) : ℕ :=
  match v with
  | .vnum (.fin q) => if 0 ≤ q then (jsTrunc q).toNat else 0
  | _ => 0

/-- `rest.reduce((product, dimension) => product * dimension, 1)`. -/
def prodDims (dims : List Value) : ℕ :=
  dims.foldl (fun p d => p * sizeNatOfDim d) 1

/-- `reshapeTypedArray`: the typed array is represented by its decoded element list.
An empty shape reads a single element (`array[offset]`, undefined when out of range); a
one-element shape takes a clamped slice (`subarray` clamps, as `drop`/`take` do); a
longer shape produces `shape[0]` recursive groups stepped by the product of the
remaining dimensions. -/
def reshapeTypedArray (flat : List JNum) : List Value → ℕ → Value
  | [], off => if off < flat.length then .vnum (flat.getD off .nan) else .vundef
  | [d], off => .varr (((flat.drop off).take (sizeNatOfDim d)).map .vnum)
  | d :: rest, off =>
    .varr ((List.range (sizeNatOfDim d)).map
      (fun i => reshapeTypedArray flat rest (off + i * prodDims rest)))

/-- `decodeNumpyContainer` on the entry list of a container-shaped object.  The dtype
tag comes from the `type` field (a string, or `String(type[0])` of a sequence); the raw
bytes from `toUint8Array(data)`.  A falsy `nd` yields the first element (or undefined);
otherwise an unrecognised dtype falls back to the raw bytes as numbers, an absent, falsy
or empty `shape` yields the flat element list, and a non-empty sequence shape is
reshaped.  (For a truthy non-sequence `shape` the JavaScript engine would throw inside
`reshapeTypedArray`; the model yields the flat list, and no claim exercises that case.) -/
def decodeNumpyContainer (es : List (String × Value)) : Value :=
  let tval := (getKey es "type").getD .vundef
  let dtype : String :=
    match tval with
    | .vstr s => s
    | .varr l => jsToString (l.getD 0 .vundef)
    | _ => ""
  let bytes := toUint8ArrayV ((getKey es "data").getD .vundef)
  if !truthy ((getKey es "nd").getD .vundef) then
    match parseDtype dtype with
    | some k => if 0 < typedLen k bytes then .vnum (typedGet k bytes 0) else .vundef
    | none => if 0 < bytes.length then .vnum (.fin (bytes.getD 0 0 % 256 : ℕ)) else .vundef
  else
    match parseDtype dtype with
    | none => .varr (bytes.map (fun b => .vnum (.fin (b % 256 : ℕ))))
    | some k =>
      let flat := typedToList k bytes
      match getKey es "shape" with
      | some (.varr dims) =>
        if dims.isEmpty then .varr (flat.map .vnum)
        else reshapeTypedArray flat dims 0
      | some sv => if truthy sv then .varr (flat.map .vnum) else .varr (flat.map .vnum)
      | none => .varr (flat.map .vnum)

/-- One entry of a possible collapsed object: a two-element sequence whose first element
is text or a number. -/
def isPairEntry : Value → Bool
  | .varr [k, _] =>
    match k with
    | .vstr _ => true
    | .vnum _ => true
    | _ => false
  | _ => false

/-- `isPossibleObj`: non-empty and every entry is a `[key, value]` pair. -/
def isPossibleObj (vs : List Value) : Bool :=
  !vs.isEmpty && vs.all isPairEntry

/-- `String(key)` for a `Map` key. -/
def mkeyToString : MKey → String
  | .kstr s => s
  | .knum n => jnumToString n

mutual

/-- The behaviour of `normalize` on the trees produced by `decodeNumpyContainer`
(undefined, numbers and nested sequences thereof).  The source re-enters `normalize` on
the decoded container; that output is never itself a mapping, `Map`, buffer or
container, so on it `normalize` coincides with this structurally recursive copy (lemma
`normalize_pureTree` below), which keeps `normalize` total in the model. -/
def normalizePost : Value → Value
  | .varr vs =>
    if isPossibleObj vs then .vobj (collapsePostList vs [])
    else .varr (normalizePostList vs)
  | v => v
termination_by v => (sizeOf v, 0)
decreasing_by all_goals (first | omega | (simp_wf; omega))

/-- Pointwise `normalizePost` over a sequence. -/
def normalizePostList : List Value → List Value
  | [] => []
  | v :: rest => normalizePost v :: normalizePostList rest
termination_by l => (sizeOf l, 1)
decreasing_by all_goals (first | omega | (simp_wf; omega))

/-- Collapse of a pair sequence under `normalizePost`, with JavaScript assignment
semantics on the accumulated entry list. -/
def collapsePostList : List Value → List (String × Value) → List (String × Value)
  | [], acc => acc
  | .varr [k, x] :: rest, acc =>
    collapsePostList rest (objUpsert acc (jsToString k) (normalizePost x))
  | _ :: rest, acc => collapsePostList rest acc
termination_by l acc => (sizeOf l, 1)
decreasing_by all_goals (first | omega | (simp_wf; omega))

end

mutual

/-- `normalize`: canonicalise a decoded value.  A sequence of `[key, value]` pairs
collapses to an object; other sequences normalize pointwise; typed arrays are kept;
`ArrayBuffer` and `DataView` become byte arrays (`Uint8Array`); a `Map` collapses to an
object with stringified keys; a container-shaped object is decoded and the result
normalized (via `normalizePost`, see there); other objects normalize each entry;
primitives are returned unchanged. -/
def normalize : Value → Value
  | .vnull => .vnull
  | .vundef => .vundef
  | .varr vs =>
    if isPossibleObj vs then .vobj (collapseList vs [])
    else .varr (normalizeList vs)
  | .vtyped k bs => .vtyped k bs
  | .vbuf bs => .vtyped .u8 bs
  | .vview bs => .vtyped .u8 bs
  | .vmap es => .vobj (collapseMapList es [])
  | .vobj es =>
    if containerKeys es then normalizePost (decodeNumpyContainer es)
    else .vobj (normalizeEntries es)
  | .vbool b => .vbool b
  | .vnum n => .vnum n
  | .vstr s => .vstr s
termination_by v => (sizeOf v, 0)
decreasing_by all_goals (first | omega | (simp_wf; omega))

/-- Pointwise `normalize` over a sequence (`value.map(normalize)`). -/
def normalizeList : List Value → List Value
  | [] => []
  | v :: rest => normalize v :: normalizeList rest
termination_by l => (sizeOf l, 1)
decreasing_by all_goals (first | omega | (simp_wf; omega))

/-- Collapse of a `[key, value]` pair sequence into object entries
(`obj[String(key)] = normalize(nested)` in order). -/
def collapseList : List Value → List (String × Value) → List (String × Value)
  | [], acc => acc
  | .varr [k, x] :: rest, acc =>
    collapseList rest (objUpsert acc (jsToString k) (normalize x))
  | _ :: rest, acc => collapseList rest acc
termination_by l acc => (sizeOf l, 1)
decreasing_by all_goals (first | omega | (simp_wf; omega))

/-- Collapse of `Map` entries into object entries
(`obj[String(key)] = normalize(nested)` in iteration order). -/
def collapseMapList : List (MKey × Value) → List (String × Value) → List (String × Value)
  | [], acc => acc
  | (k, v) :: rest, acc =>
    collapseMapList rest (objUpsert acc (mkeyToString k) (normalize v))
termination_by l acc => (sizeOf l, 1)
decreasing_by all_goals (first | omega | (simp_wf; omega))

/-- Pointwise `normalize` over object entries
(`result[key] = normalize(nested)` for each own entry). -/
def normalizeEntries : List (String × Value) → List (String × Value)
  | [] => []
  | (k, v) :: rest => (k, normalize v) :: normalizeEntries rest
termination_by l => (sizeOf l, 1)
decreasing_by all_goals (first | omega | (simp_wf; omega))

end

/-- `unwrapSocketMessagePayload`: peel the `["message", ...payload]` framing.  A
non-empty sequence whose first element is text equal (case-insensitively) to
`"message"` unwraps to null when no payload follows, to the single payload element, or
to the remaining sequence; anything else is returned unchanged. -/
def unwrapSocketMessagePayload : Value → Value
  | .varr (first :: rest) =>
    match first with
    | .vstr tag =>
      if strToLower tag = "message" then
        match rest with
        | [] => .vnull
        | [only] => unwrapSocketMessagePayload only
        | r0 :: r1 :: rs => unwrapSocketMessagePayload (.varr (r0 :: r1 :: rs))
      else .varr (first :: rest)
    | _ => .varr (first :: rest)
  | v => v
termination_by v => sizeOf v
decreasing_by all_goals (simp_wf; try omega)

/-- The connected-status bit (`STATUS_CONNECTED = 0x00000001`). -/
def STATUS_CONNECTED : ℕ := 1

/-- `(status & STATUS_CONNECTED) === STATUS_CONNECTED` for a JavaScript number: the
`&` operator applies ToInt32 to both operands, so the comparison holds exactly when the
low bit of ToUint32(status) is set. -/
def statusConnectedBit (st : JNum) : Bool :=
  Nat.land (toUint32 st) STATUS_CONNECTED == STATUS_CONNECTED

/-- A JavaScript object property that is missing, explicitly `null`, or a value.
Assigning `undefined` to a property is modelled as `absent` (the two states are
indistinguishable to every reader in the codec). -/
inductive JProp (α : Type) where
  | absent
  | jnull
  | jval (a : α)
deriving DecidableEq, Repr

/-- `jval` for `some`, `jnull` for `none`: assignment of a `T | null` result. -/
def propOf {α : Type} : Option α → JProp α
  | some a => .jval a
  | none => .jnull

/-- `jval` for `some`, `absent` for `none`: assignment of a possibly-undefined result. -/
def propOfU {α : Type} : Option α → JProp α
  | some a => .jval a
  | none => .absent

/-- JavaScript falsiness of a property: missing and `null` are falsy, any object value
is truthy (the codec only tests object-valued slots). -/
def falsyProp {α : Type} : JProp α → Bool
  | .jval _ => false
  | _ => true

/-- The `Offset` record type. -/
structure OffsetT where
  off_x : Option JNum := none
  off_y : Option JNum := none
  off_z : Option JNum := none
  unit : Option String := none
  heading_offset : Option JNum := none
  elevation_offset : Option JNum := none
deriving DecidableEq, Repr

/-- The `ColorCorrection` record type. -/
structure ColorCorrectionT where
  h : Option JNum := none
  s : Option JNum := none
  v : Option JNum := none
deriving DecidableEq, Repr

/-- The `Image` record type (`data` is base64 text). -/
structure ImageT where
  valid : Option Bool := none
  width : Option JNum := none
  height : Option JNum := none
  data : Option String := none
deriving DecidableEq, Repr

/-- The `Color` record type. -/
structure ColorT where
  image : Option ImageT := none
deriving DecidableEq, Repr

/-- The `MapLocation` record type. -/
structure MapLocationT where
  x : Option (List JNum) := none
  y : Option (List JNum) := none
  z : Option (List JNum) := none
deriving DecidableEq, Repr

/-- The `ScreenLocation` record type. -/
structure ScreenLocationT where
  x : Option JNum := none
  y : Option JNum := none
  width : Option JNum := none
  height : Option JNum := none
deriving DecidableEq, Repr

/-- The `Position` record type. -/
structure PositionT where
  status : Option JNum := none
  x : Option JNum := none
  y : Option JNum := none
  z : Option JNum := none
  azimuth : Option JNum := none
  elevation : Option JNum := none
  rotation : Option JNum := none
  connected : Option Bool := none
deriving DecidableEq, Repr

/-- The `Statistics` record type. -/
structure StatisticsT where
  fps : Option JNum := none
  invoke_time : Option JNum := none
  video_width : Option JNum := none
  video_height : Option JNum := none
  run_time : Option JNum := none
  gps_connected : Option Bool := none
  cpu_temp : Option JNum := none
deriving DecidableEq, Repr

/-- The `Detection` record type. -/
structure DetectionT where
  class_id : Option JNum := none
  prob : Option JNum := none
  depth : Option JNum := none
  screen_location : Option ScreenLocationT := none
  map_location : Option MapLocationT := none
deriving DecidableEq, Repr

/-- The decoded snapshot (`DataResponse`). -/
structure DataResponse where
  command : JProp String := .absent
  valid : JProp Bool := .absent
  cameraOffset : JProp OffsetT := .absent
  color : JProp ColorT := .absent
  depth : JProp ColorT := .absent
  detections : JProp (List DetectionT) := .absent
  position : JProp PositionT := .absent
  stats : JProp StatisticsT := .absent
  gpsOffset : JProp OffsetT := .absent
  colorCorrection : JProp ColorCorrectionT := .absent
deriving DecidableEq, Repr

/-- `asNumber`: numbers pass unless NaN; texts parse via `Number(string)`; a non-empty
sequence or typed array coerces via its first element; everything else is absent. -/
def asNumber : Value → Option JNum
  | .vnum n => if n.isNaNb then none else some n
  | .vstr s =>
    let n := jsStrToNum s
    if n.isNaNb then none else some n
  | .varr (v :: _) => asNumber v
  | .vtyped k bs =>
    if 0 < typedLen k bs then
      (let n := typedGet k bs 0
       if n.isNaNb then none else some n)
    else none
  | _ => none

/-- `asBoolean`: booleans pass; numbers give `value !== 0` unless NaN; trimmed
lower-cased texts `"true"`/`"1"` and `"false"`/`"0"` parse; everything else absent. -/
def asBoolean : Value → Option Bool
  | .vbool b => some b
  | .vnum n =>
    match n with
    | .nan => none
    | .fin q => some (q != 0)
    | .inf _ => some true
  | .vstr s =>
    let t := strToLower (strTrim s)
    if t == "true" || t == "1" then some true
    else if t == "false" || t == "0" then some false
    else none
  | _ => none

/-- `asString`: texts pass; numbers and booleans stringify; everything else absent. -/
def asString : Value → Option String
  | .vstr s => some s
  | .vnum n => some (jnumToString n)
  | .vbool b => some (if b then "true" else "false")
  | _ => none

/-- `toNumericArray`: a sequence maps each entry through `asNumber` and keeps only the
finite results; a typed array keeps its non-NaN elements (note: infinities are kept on
this branch); anything else coerces through `asNumber` to a singleton or empty list. -/
def toNumericArray : Value → List JNum
  | .varr vs =>
    (vs.map asNumber).filterMap
      (fun o =>
        match o with
        | some (.fin q) => some (JNum.fin q)
        | _ => none)
  | .vtyped k bs => (typedToList k bs).filter (fun n => !n.isNaNb)
  | v =>
    match asNumber v with
    | some n => [n]
    | none => []

/-- Stringified index entries of a sequence, as `Object.entries` produces them. -/
def indexedEntries (vs : List Value) : List (String × Value) :=
  vs.enum.map (fun p => (toString p.1, p.2))

/-- `resolveRecord`: primitives give null; an object strips its `name` key (if any) and
keeps the remaining entries; a sequence exposes its index entries; typed arrays expose
their index entries (none of the codec's field names collides with a typed-array
property, so reads on them miss); `Map`, `ArrayBuffer` and `DataView` objects have no
own entries, so every field read on them misses. -/
def resolveRecord : Value → Option (List (String × Value))
  | .vnull => none
  | .vundef => none
  | .vbool _ => none
  | .vnum _ => none
  | .vstr _ => none
  | .vobj es =>
    some (if hasKey es "name" then es.filter (fun kv => kv.1 != "name") else es)
  | .varr vs => some (indexedEntries vs)
  | .vtyped k bs => some (indexedEntries ((typedToList k bs).map .vnum))
  | .vbuf _ => some []
  | .vview _ => some []
  | .vmap _ => some []

/-- `readField`: the first alias present as a key wins (even if its value is
undefined); a miss on every alias reads as undefined. -/
def readField (es : List (String × Value)) : List String → Value
  | [] => .vundef
  | k :: ks => if hasKey es k then (getKey es k).getD .vundef else readField es ks

/-- Property read `es[k]` with absent keys reading as undefined. -/
def jsProp (es : List (String × Value)) (k : String) : Value :=
  ((getKey es k).getD .vundef)

/-- `decodePosition`; the derived `connected` comes from the status bit when `status`
resolved, else from an explicit connected field when that parses, else stays absent. -/
def decodePosition (value : Value) : Option PositionT :=
  match resolveRecord value with
  | none => none
  | some data =>
    let status := asNumber (readField data ["status", "Status"])
    let base : PositionT :=
      { status := status
        x := asNumber (readField data ["x", "X"])
        y := asNumber (readField data ["y", "Y"])
        z := asNumber (readField data ["z", "Z"])
        azimuth := asNumber (readField data ["azimuth", "Azimuth"])
        elevation := asNumber (readField data ["elevation", "Elevation"])
        rotation := asNumber (readField data ["rotation", "Rotation"]) }
    match status with
    | some st => some { base with connected := some (statusConnectedBit st) }
    | none =>
      match asBoolean (readField data ["connected", "Connected"]) with
      | some c => some { base with connected := some c }
      | none => some base

/-- `decodeOffset`. -/
def decodeOffset (value : Value) : Option OffsetT :=
  match resolveRecord value with
  | none => none
  | some data =>
    some
      { off_x := asNumber (readField data ["x", "X", "off_x", "offX"])
        off_y := asNumber (readField data ["y", "Y", "off_y", "offY"])
        off_z := asNumber (readField data ["z", "Z", "off_z", "offZ"])
        unit := asString (readField data ["unit"])
        heading_offset := asNumber (readField data ["heading_offset", "headingOffset"])
        elevation_offset :=
          asNumber (readField data ["elevation_offset", "elevationOffset"]) }

/-- `decodeColorCorrection`: null when all three channels are absent. -/
def decodeColorCorrection (value : Value) : Option ColorCorrectionT :=
  match resolveRecord value with
  | none => none
  | some data =>
    let h := asNumber (readField data ["h", "H"])
    let s := asNumber (readField data ["s", "S"])
    let v := asNumber (readField data ["v", "V"])
    if h = none ∧ s = none ∧ v = none then none
    else some { h := h, s := s, v := v }

/-- `decodeImage`: the raw `data` field becomes base64 text when it is a typed array or
a non-empty sequence headed by a number; other non-null non-text values stringify; text
passes through. -/
def decodeImage (value : Value) : Option ImageT :=
  match resolveRecord value with
  | none => none
  | some data =>
    let width := asNumber (readField data ["width", "Width"])
    let height := asNumber (readField data ["height", "Height"])
    let valid := asBoolean (readField data ["valid", "Valid"])
    let rawData := readField data ["data", "Data"]
    let dataStr : Option String :=
      match rawData with
      | .vtyped _ bs => some (bytesToBase64 bs)
      | .varr (e :: rest) =>
        match e with
        | .vnum _ => some (bytesToBase64 ((e :: rest).map jsToUint8))
        | _ => some (jsToString (.varr (e :: rest)))
      | .vstr s => some s
      | .vnull => none
      | .vundef => none
      | other => some (jsToString other)
    some { valid := valid, width := width, height := height, data := dataStr }

/-- `decodeColor`: null unless an image decodes under the `image` alias. -/
def decodeColor (value : Value) : Option ColorT :=
  match resolveRecord value with
  | none => none
  | some data =>
    match decodeImage (readField data ["image", "Image"]) with
    | none => none
    | some im => some { image := some im }

/-- `decodeScreenLocation`. -/
def decodeScreenLocation (value : Value) : Option ScreenLocationT :=
  match resolveRecord value with
  | none => none
  | some data =>
    some
      { x := asNumber (readField data ["x", "X"])
        y := asNumber (readField data ["y", "Y"])
        width := asNumber (readField data ["width", "Width"])
        height := asNumber (readField data ["height", "Height"]) }

/-- `decodeMapLocation`. -/
def decodeMapLocation (value : Value) : Option MapLocationT :=
  match resolveRecord value with
  | none => none
  | some data =>
    some
      { x := some (toNumericArray (readField data ["x", "X"]))
        y := some (toNumericArray (readField data ["y", "Y"]))
        z := some (toNumericArray (readField data ["z", "Z"])) }

/-- `decodeStats`. -/
def decodeStats (value : Value) : Option StatisticsT :=
  match resolveRecord value with
  | none => none
  | some data =>
    some
      { fps := asNumber (readField data ["fps", "FPS"])
        invoke_time := asNumber (readField data ["infer_time", "inferTime", "InferTime"])
        video_width :=
          asNumber (readField data ["video_width", "videoWidth", "VideoWidth"])
        video_height :=
          asNumber (readField data ["video_height", "videoHeight", "VideoHeight"])
        run_time := asNumber (readField data ["run_time", "runTime", "RunTime"])
        gps_connected :=
          asBoolean (readField data ["gps_connected", "gpsConnected", "GPSConnected"])
        cpu_temp :=
          asNumber
            (readField data ["cpu_temp", "cpuTemp", "cpuTempurature", "CPUTempurature"]) }

/-- `decodeDetection`. -/
def decodeDetection (value : Value) : Option DetectionT :=
  match resolveRecord value with
  | none => none
  | some data =>
    some
      { class_id := asNumber (readField data ["class", "class_id", "classId"])
        prob := asNumber (readField data ["prob", "probability"])
        depth := asNumber (readField data ["depth"])
        screen_location :=
          decodeScreenLocation (readField data ["screenLocation", "screen_location"])
        map_location :=
          decodeMapLocation (readField data ["mapLocation", "map_location"]) }

/-- `decodeDetections`: falsy input gives the empty list; a sequence decodes each entry
and keeps the successes; an object recurses into its `detections` sequence if present
(the recursive call lands in the sequence branch, inlined here), else decodes itself as
a single detection when it carries a `name` discriminator. -/
def decodeDetections (value : Value) : List DetectionT :=
  if !truthy value then []
  else
    match value with
    | .varr vs => vs.filterMap decodeDetection
    | .vobj es =>
      match getKey es "detections" with
      | some (.varr ds) => ds.filterMap decodeDetection
      | _ =>
        if hasKey es "name" then
          match decodeDetection value with
          | some d => [d]
          | none => []
        else []
    | _ => []

/-- The decoded fields of an `AIRecord` (a partial snapshot). -/
structure PartialDR where
  position : Option PositionT := none
  detections : Option (List DetectionT) := none
  stats : Option StatisticsT := none
  color : Option ColorT := none
  depth : Option ColorT := none
deriving DecidableEq, Repr

/-- The `data.position !== undefined` block of `decodeAIRecord`. -/
def aiStepPosition (data : List (String × Value)) (p : PartialDR) : PartialDR :=
  match jsProp data "position" with
  | .vundef => p
  | pv =>
    match decodePosition pv with
    | some x => { p with position := some x }
    | none => p

/-- The `data.detections !== undefined` block of `decodeAIRecord`. -/
def aiStepDetections (data : List (String × Value)) (p : PartialDR) : PartialDR :=
  match jsProp data "detections" with
  | .vundef => p
  | dv =>
    let ds := decodeDetections dv
    if 0 < ds.length then { p with detections := some ds } else p

/-- The `data.stats !== undefined` block of `decodeAIRecord`. -/
def aiStepStats (data : List (String × Value)) (p : PartialDR) : PartialDR :=
  match jsProp data "stats" with
  | .vundef => p
  | sv =>
    match decodeStats sv with
    | some st => { p with stats := some st }
    | none => p

/-- The `data.color !== undefined` block of `decodeAIRecord`. -/
def aiStepColor (data : List (String × Value)) (p : PartialDR) : PartialDR :=
  match jsProp data "color" with
  | .vundef => p
  | cv =>
    match decodeColor cv with
    | some c => { p with color := some c }
    | none => p

/-- The `data.depth !== undefined` block of `decodeAIRecord`. -/
def aiStepDepth (data : List (String × Value)) (p : PartialDR) : PartialDR :=
  match jsProp data "depth" with
  | .vundef => p
  | dv =>
    match decodeColor dv with
    | some c => { p with depth := some c }
    | none => p

/-- `decodeAIRecord`: each constituent is decoded only when its field is present and
not undefined (one step function per if-block of the source, applied in source order);
the partial is null when nothing decoded. -/
def decodeAIRecord (value : Value) : Option PartialDR :=
  match resolveRecord value with
  | none => none
  | some data =>
    let p5 :=
      aiStepDepth data
        (aiStepColor data (aiStepStats data (aiStepDetections data
          (aiStepPosition data {}))))
    if p5 = ({} : PartialDR) then none else some p5

/-- Number field for encoding: the field's value, or the zero default. -/
def vnumOf (o : Option JNum) (d : JNum) : Value := .vnum (o.getD d)

/-- `cleanPayload`: drop entries whose value is explicitly undefined. -/
def cleanPayload (es : List (String × Value)) : List (String × Value) :=
  es.filter (fun kv => match kv.2 with | .vundef => false | _ => true)

/-- The envelope `{ name, ...cleanPayload(raw) }` built by `encodeRecord`. -/
def envelopeOf (name : String) (fields : List (String × Value)) : Value :=
  .vobj (("name", Value.vstr name) :: cleanPayload fields)

/-- `encodePositionRecord`. -/
def encodePositionRecord (p : PositionT) : List (String × Value) :=
  [("frame_count", .vnum (.fin 0)),
   ("status", vnumOf p.status (.fin 0)),
   ("x", vnumOf p.x (.fin 0)),
   ("y", vnumOf p.y (.fin 0)),
   ("z", vnumOf p.z (.fin 0)),
   ("azimuth", vnumOf p.azimuth (.fin 0)),
   ("elevation", vnumOf p.elevation (.fin 0)),
   ("rotation", vnumOf p.rotation (.fin 0))]

/-- `encodeOffsetRecord`. -/
def encodeOffsetRecord (o : OffsetT) : List (String × Value) :=
  [("off_x", vnumOf o.off_x (.fin 0)),
   ("off_y", vnumOf o.off_y (.fin 0)),
   ("off_z", vnumOf o.off_z (.fin 0)),
   ("unit", .vstr (o.unit.getD "")),
   ("heading_offset", vnumOf o.heading_offset (.fin 0)),
   ("elevation_offset", vnumOf o.elevation_offset (.fin 0))]

/-- `encodeStatsRecord`. -/
def encodeStatsRecord (s : StatisticsT) : List (String × Value) :=
  [("fps", vnumOf s.fps (.fin 0)),
   ("infer_time", vnumOf s.invoke_time (.fin 0)),
   ("video_width", vnumOf s.video_width (.fin 0)),
   ("video_height", vnumOf s.video_height (.fin 0)),
   ("run_time", vnumOf s.run_time (.fin 0)),
   ("gps_connected", .vbool (s.gps_connected.getD false)),
   ("cpu_temp", vnumOf s.cpu_temp (.fin 0))]

/-- `encodeColorCorrectionRecord`. -/
def encodeColorCorrectionRecord (c : ColorCorrectionT) : List (String × Value) :=
  [("h", vnumOf c.h (.fin 0)),
   ("s", vnumOf c.s (.fin 0)),
   ("v", vnumOf c.v (.fin 0))]

/-- `encodeImageDetectionRecord`. -/
def encodeImageDetectionRecord (l : ScreenLocationT) : List (String × Value) :=
  [("x", vnumOf l.x (.fin 0)),
   ("y", vnumOf l.y (.fin 0)),
   ("width", vnumOf l.width (.fin 0)),
   ("height", vnumOf l.height (.fin 0))]

/-- `encodeNumericArray`: pack numbers as a float32 tensor container
(`Float32Array.from` rounds each element to binary32; the raw bytes are its
little-endian storage). -/
def encodeNumericArray (values : Option (List JNum)) : Value :=
  let arr : List JNum :=
    match values with
    | some l => if 0 < l.length then l else []
    | none => []
  .vobj
    [("nd", .vbool true),
     ("type", .vstr "<f4"),
     ("kind", .vstr ""),
     ("shape", .varr [.vnum (.fin (arr.length : ℕ))]),
     ("data", .vtyped .u8 (f32BytesOfList arr))]

/-- `encodeMapDetectionRecord`. -/
def encodeMapDetectionRecord (l : MapLocationT) : List (String × Value) :=
  [("x", encodeNumericArray l.x),
   ("y", encodeNumericArray l.y),
   ("z", encodeNumericArray l.z)]

/-- `encodeDetectionRecord`: nested sub-records are encoded through `encodeRecord` with
the literal kinds `ImageDetection`/`MapDetection` (the known-kind path, inlined), with
explicit zero defaults when absent. -/
def encodeDetectionRecord (d : DetectionT) : List (String × Value) :=
  let screen :=
    match d.screen_location with
    | some sl => envelopeOf "ImageDetection" (encodeImageDetectionRecord sl)
    | none =>
      envelopeOf "ImageDetection"
        (encodeImageDetectionRecord
          { x := some (.fin 0), y := some (.fin 0),
            width := some (.fin 0), height := some (.fin 0) })
  let mapv :=
    match d.map_location with
    | some ml => envelopeOf "MapDetection" (encodeMapDetectionRecord ml)
    | none =>
      envelopeOf "MapDetection"
        (encodeMapDetectionRecord { x := some [], y := some [], z := some [] })
  [("class_id", vnumOf d.class_id (.fin 0)),
   ("probability", vnumOf d.prob (.fin 0)),
   ("depth", vnumOf d.depth (.fin 0)),
   ("screen_location", screen),
   ("map_location", mapv)]

/-- `encodeImageRecord`: base64 text decodes back to raw bytes (absent data becomes the
empty byte sequence); `Boolean(image.valid)` maps an absent flag to false. -/
def encodeImageRecord (im : ImageT) : List (String × Value) :=
  let dataBytes : List ℕ :=
    match im.data with
    | some s => base64ToBytes s
    | none => []
  [("valid", .vbool (im.valid.getD false)),
   ("width", vnumOf im.width (.fin 0)),
   ("height", vnumOf im.height (.fin 0)),
   ("data", .vtyped .u8 dataBytes)]

/-- `encodeColorRecord`. -/
def encodeColorRecord (c : ColorT) : List (String × Value) :=
  [("image",
    match c.image with
    | some im => envelopeOf "Image" (encodeImageRecord im)
    | none => .vundef)]

/-- Input type of `AIRecord` encoding. -/
structure AIRecordInT where
  position : PositionT
  detections : Option (List DetectionT) := none
  stats : Option StatisticsT := none
  color : Option ColorT := none
  depth : Option ColorT := none
deriving DecidableEq, Repr

/-- `encodeAIRecordRecord`: nested records are encoded through the known-kind path;
absent stats/color/depth encode as undefined and are stripped by `cleanPayload`. -/
def encodeAIRecordRecord (r : AIRecordInT) : List (String × Value) :=
  [("position", envelopeOf "Position" (encodePositionRecord r.position)),
   ("detections",
    .varr ((r.detections.getD []).map
      (fun d => envelopeOf "Detection" (encodeDetectionRecord d)))),
   ("stats",
    match r.stats with
    | some s => envelopeOf "Statistics" (encodeStatsRecord s)
    | none => .vundef),
   ("color",
    match r.color with
    | some c => envelopeOf "Color" (encodeColorRecord c)
    | none => .vundef),
   ("depth",
    match r.depth with
    | some c => envelopeOf "Color" (encodeColorRecord c)
    | none => .vundef)]

/-- The ten record kinds of the dispatch tables. -/
inductive RecordKind where
  | position | offset | statistics | colorCorrection | detection
  | imageDetection | mapDetection | aiRecord | color | image
deriving DecidableEq, Repr

/-- The ten known record discriminators. -/
def recordNames : List String :=
  ["AIRecord", "Position", "Offset", "Statistics", "ColorCorrection", "Detection",
   "ImageDetection", "MapDetection", "Color", "Image"]

/-- Table lookup of a record kind by its discriminator text. -/
def parseKind : String → Option RecordKind
  | "AIRecord" => some .aiRecord
  | "Position" => some .position
  | "Offset" => some .offset
  | "Statistics" => some .statistics
  | "ColorCorrection" => some .colorCorrection
  | "Detection" => some .detection
  | "ImageDetection" => some .imageDetection
  | "MapDetection" => some .mapDetection
  | "Color" => some .color
  | "Image" => some .image
  | _ => none

/-- A typed value paired with its record kind (`RecordInputMap`), for the encode path. -/
inductive RecordValue where
  | position (p : PositionT)
  | offset (o : OffsetT)
  | statistics (s : StatisticsT)
  | colorCorrection (c : ColorCorrectionT)
  | detection (d : DetectionT)
  | imageDetection (s : ScreenLocationT)
  | mapDetection (m : MapLocationT)
  | aiRecord (a : AIRecordInT)
  | color (c : ColorT)
  | image (i : ImageT)
deriving DecidableEq, Repr

/-- Entry contributed by an optional number field of a typed input record: present
fields appear under their key, absent fields are simply not own properties. -/
def optNumEntry (k : String) : Option JNum → List (String × Value)
  | some n => [(k, .vnum n)]
  | none => []

/-- Entry contributed by an optional boolean field. -/
def optBoolEntry (k : String) : Option Bool → List (String × Value)
  | some b => [(k, .vbool b)]
  | none => []

/-- Entry contributed by an optional text field. -/
def optStrEntry (k : String) : Option String → List (String × Value)
  | some s => [(k, .vstr s)]
  | none => []

/-- Entry contributed by an optional number-sequence field. -/
def optNumListEntry (k : String) : Option (List JNum) → List (String × Value)
  | some l => [(k, .varr (l.map .vnum))]
  | none => []

/-- Own enumerable entries of a `Position` input value as a JavaScript object, in the
field order of the `Position` interface. -/
def positionEntriesJS (p : PositionT) : List (String × Value) :=
  optNumEntry "status" p.status ++ optNumEntry "x" p.x ++ optNumEntry "y" p.y ++
    optNumEntry "z" p.z ++ optNumEntry "azimuth" p.azimuth ++
    optNumEntry "elevation" p.elevation ++ optNumEntry "rotation" p.rotation ++
    optBoolEntry "connected" p.connected

/-- Own enumerable entries of an `Offset` input value. -/
def offsetEntriesJS (o : OffsetT) : List (String × Value) :=
  optNumEntry "off_x" o.off_x ++ optNumEntry "off_y" o.off_y ++
    optNumEntry "off_z" o.off_z ++ optStrEntry "unit" o.unit ++
    optNumEntry "heading_offset" o.heading_offset ++
    optNumEntry "elevation_offset" o.elevation_offset

/-- Own enumerable entries of a `Statistics` input value. -/
def statsEntriesJS (s : StatisticsT) : List (String × Value) :=
  optNumEntry "fps" s.fps ++ optNumEntry "invoke_time" s.invoke_time ++
    optNumEntry "video_width" s.video_width ++
    optNumEntry "video_height" s.video_height ++ optNumEntry "run_time" s.run_time ++
    optBoolEntry "gps_connected" s.gps_connected ++ optNumEntry "cpu_temp" s.cpu_temp

/-- Own enumerable entries of a `ColorCorrection` input value. -/
def ccEntriesJS (c : ColorCorrectionT) : List (String × Value) :=
  optNumEntry "h" c.h ++ optNumEntry "s" c.s ++ optNumEntry "v" c.v

/-- Own enumerable entries of a `ScreenLocation` input value. -/
def screenEntriesJS (l : ScreenLocationT) : List (String × Value) :=
  optNumEntry "x" l.x ++ optNumEntry "y" l.y ++ optNumEntry "width" l.width ++
    optNumEntry "height" l.height

/-- Own enumerable entries of a `MapLocation` input value. -/
def mapEntriesJS (m : MapLocationT) : List (String × Value) :=
  optNumListEntry "x" m.x ++ optNumListEntry "y" m.y ++ optNumListEntry "z" m.z

/-- Own enumerable entries of a `Detection` input value (nested locations appear as
nested objects). -/
def detectionEntriesJS (d : DetectionT) : List (String × Value) :=
  optNumEntry "class_id" d.class_id ++ optNumEntry "prob" d.prob ++
    optNumEntry "depth" d.depth ++
    (match d.screen_location with
     | some sl => [("screen_location", .vobj (screenEntriesJS sl))]
     | none => []) ++
    (match d.map_location with
     | some ml => [("map_location", .vobj (mapEntriesJS ml))]
     | none => [])

/-- Own enumerable entries of an `Image` input value. -/
def imageEntriesJS (im : ImageT) : List (String × Value) :=
  optBoolEntry "valid" im.valid ++ optNumEntry "width" im.width ++
    optNumEntry "height" im.height ++ optStrEntry "data" im.data

/-- Own enumerable entries of a `Color` input value. -/
def colorEntriesJS (c : ColorT) : List (String × Value) :=
  match c.image with
  | some im => [("image", .vobj (imageEntriesJS im))]
  | none => []

/-- Own enumerable entries of an `AIRecord` input value. -/
def aiRecordEntriesJS (r : AIRecordInT) : List (String × Value) :=
  [("position", Value.vobj (positionEntriesJS r.position))] ++
    (match r.detections with
     | some ds => [("detections", Value.varr (ds.map (fun d => .vobj (detectionEntriesJS d))))]
     | none => []) ++
    (match r.stats with
     | some st => [("stats", Value.vobj (statsEntriesJS st))]
     | none => []) ++
    (match r.color with
     | some c => [("color", Value.vobj (colorEntriesJS c))]
     | none => []) ++
    (match r.depth with
     | some c => [("depth", Value.vobj (colorEntriesJS c))]
     | none => [])

/-- A typed input record as the JavaScript object the caller passes: its own
enumerable string-keyed entries, in the interface's field order (the caller's literal
insertion order is not observable from the types; the model fixes the declaration
order). -/
def recordValueEntries : RecordValue → List (String × Value)
  | .position p => positionEntriesJS p
  | .offset o => offsetEntriesJS o
  | .statistics s => statsEntriesJS s
  | .colorCorrection c => ccEntriesJS c
  | .detection d => detectionEntriesJS d
  | .imageDetection l => screenEntriesJS l
  | .mapDetection m => mapEntriesJS m
  | .aiRecord r => aiRecordEntriesJS r
  | .color c => colorEntriesJS c
  | .image im => imageEntriesJS im

/-- The per-kind encode table (`recordEncoders`).  In the source the value's static
type always matches the kind; a mismatched payload (impossible for the typed callers)
encodes the kind's empty record, mirroring property reads that all miss. -/
def rawEncode : RecordKind → RecordValue → List (String × Value)
  | .position, .position p => encodePositionRecord p
  | .position, _ => encodePositionRecord {}
  | .offset, .offset o => encodeOffsetRecord o
  | .offset, _ => encodeOffsetRecord {}
  | .statistics, .statistics s => encodeStatsRecord s
  | .statistics, _ => encodeStatsRecord {}
  | .colorCorrection, .colorCorrection c => encodeColorCorrectionRecord c
  | .colorCorrection, _ => encodeColorCorrectionRecord {}
  | .detection, .detection d => encodeDetectionRecord d
  | .detection, _ => encodeDetectionRecord {}
  | .imageDetection, .imageDetection s => encodeImageDetectionRecord s
  | .imageDetection, _ => encodeImageDetectionRecord {}
  | .mapDetection, .mapDetection m => encodeMapDetectionRecord m
  | .mapDetection, _ => encodeMapDetectionRecord {}
  | .aiRecord, .aiRecord a => encodeAIRecordRecord a
  | .aiRecord, _ => encodeAIRecordRecord { position := {} }
  | .color, .color c => encodeColorRecord c
  | .color, _ => encodeColorRecord {}
  | .image, .image i => encodeImageRecord i
  | .image, _ => encodeImageRecord {}

/-- The two failure modes of the codec: the explicit unsupported-kind error thrown by
`encodeRecord`, and the TypeError raised when an unguarded table lookup yields
undefined and is then called. -/
inductive CodecError where
  | unsupportedKind (name : String)
  | typeError
deriving DecidableEq, Repr

/-- The own property names of `Object.prototype` whose inherited function (or, for
`__proto__`, inherited accessor value) throws a TypeError when looked up on a plain
dispatch table and then called in strict mode with an undefined `this`: the first nine
are methods that run `ToObject(this)` (or invoke `toString` on `this`, or require a
callable second argument that the call sites never pass), and `__proto__` reads as
`Object.prototype`, which is not callable at all. -/
def protoThrowersUndefThis : List String :=
  ["toLocaleString", "valueOf", "hasOwnProperty", "isPrototypeOf",
   "propertyIsEnumerable", "__defineGetter__", "__defineSetter__",
   "__lookupGetter__", "__lookupSetter__", "__proto__"]

/-- All own property names of `Object.prototype`: a bare `table[name]` lookup on a
plain-object dispatch table finds these through the prototype chain whenever `name` is
not an own key, so the miss-guards of the codec do not fire on them. -/
def objectProtoMembers : List String :=
  "constructor" :: "toString" :: protoThrowersUndefThis

/-- The index entries a text contributes when spread into an object
(`Object.entries` of a string yields its characters under their indices). -/
def stringCharEntries (s : String) : List (String × Value) :=
  s.toList.enum.map (fun p => (toString p.1, Value.vstr (String.singleton p.2)))

/-- `encodeRecord`: the lookup `recordEncoders[name]` walks the prototype chain, so
the `!encoder` guard only fires when `name` is neither one of the ten own keys nor an
`Object.prototype` member; only then is the explicit unsupported-kind error thrown.
An inherited `constructor` is the `Object` function: the extracted strict-mode call
`encoder(value)` returns `ToObject(value)`, i.e. the input record itself, which is then
cleaned and spread into the envelope.  An inherited `toString` returns
`"[object Undefined]"` (its `this` is undefined), whose cleaned entries are the
string's characters.  Every other inherited member throws a TypeError when called with
an undefined `this` (or is not callable), see `protoThrowersUndefThis`. -/
def encodeRecord (name : String) (value : RecordValue) : Except CodecError Value :=
  match parseKind name with
  | some k => .ok (envelopeOf name (rawEncode k value))
  | none =>
    if name = "constructor" then
      .ok (envelopeOf "constructor" (recordValueEntries value))
    else if name = "toString" then
      .ok (envelopeOf "toString" (stringCharEntries "[object Undefined]"))
    else if name ∈ protoThrowersUndefThis then .error .typeError
    else .error (.unsupportedKind name)

/-- Result of `decodeRecord`, tagged by kind (`RecordOutputMap`). -/
inductive RecordOut where
  | position (p : PositionT)
  | offset (o : OffsetT)
  | statistics (s : StatisticsT)
  | colorCorrection (c : ColorCorrectionT)
  | detection (d : DetectionT)
  | imageDetection (s : ScreenLocationT)
  | mapDetection (m : MapLocationT)
  | aiRecord (a : PartialDR)
  | color (c : ColorT)
  | image (i : ImageT)
deriving DecidableEq, Repr

/-- The per-kind decode table (`recordDecoders`). -/
def runDecoder (k : RecordKind) (env : Value) : Option RecordOut :=
  match k with
  | .aiRecord => (decodeAIRecord env).map .aiRecord
  | .position => (decodePosition env).map .position
  | .offset => (decodeOffset env).map .offset
  | .statistics => (decodeStats env).map .statistics
  | .colorCorrection => (decodeColorCorrection env).map .colorCorrection
  | .detection => (decodeDetection env).map .detection
  | .imageDetection => (decodeScreenLocation env).map .imageDetection
  | .mapDetection => (decodeMapLocation env).map .mapDetection
  | .color => (decodeColor env).map .color
  | .image => (decodeImage env).map .image

/-- Property read `record.name` (undefined off objects or when the key misses). -/
def jsGetProp (v : Value) (k : String) : Value :=
  match v with
  | .vobj es => (getKey es k).getD .vundef
  | _ => (.vundef)

/-- Junk returned by `recordDecoders[name](record)` when the lookup finds an inherited
`Object.prototype` member instead of a decoder.  The call is a method call, so `this`
is the decoder table itself, and `record` is always a plain object here (only an
object can carry the `name` discriminator), whose string conversion is
`"[object Object]"`. -/
inductive ProtoJunk where
  | theRecord (record : Value)
  | theTable
  | text (s : String)
  | flag (b : Bool)
  | undef
deriving Repr

/-- Result of the untyped `decodeRecord` call: either one of the table's own decoders
ran (`RecordOutputMap[K] | null`), or an inherited `Object.prototype` member was
invoked and returned junk. -/
inductive DecodeResult where
  | decoded (r : Option RecordOut)
  | protoJunk (j : ProtoJunk)
deriving Repr

/-- The lookup-and-call `recordDecoders[name](record)` when `name` is not an own key
of the table: the lookup walks up to `Object.prototype`.  `constructor` is the
`Object` function and returns the record; `toString`/`toLocaleString` stringify the
table; `valueOf` returns `ToObject(this)`, the table itself; the three predicate
methods test the key `"[object Object]"` (the record's string conversion) against the
table and return false; the two lookup methods find no accessor for that key and
return undefined.  `__defineGetter__`/`__defineSetter__` throw a TypeError (the call
passes no callable second argument), `__proto__` reads as the non-callable
`Object.prototype`, and a true miss reads as undefined whose call throws too. -/
def protoDecodeCall (env : Value) (name : String) : Except CodecError DecodeResult :=
  if name = "constructor" then .ok (.protoJunk (.theRecord env))
  else if name = "toString" ∨ name = "toLocaleString" then
    .ok (.protoJunk (.text "[object Object]"))
  else if name = "valueOf" then .ok (.protoJunk .theTable)
  else if name = "hasOwnProperty" ∨ name = "isPrototypeOf" ∨
      name = "propertyIsEnumerable" then .ok (.protoJunk (.flag false))
  else if name = "__lookupGetter__" ∨ name = "__lookupSetter__" then
    .ok (.protoJunk .undef)
  else .error .typeError

/-- `decodeRecord`: an unguarded lookup `recordDecoders[record.name]` followed by a
method call.  An own key runs its decoder; any other name resolves through the
prototype chain (`protoDecodeCall`), returning junk for most inherited members and
throwing a TypeError for `__defineGetter__`, `__defineSetter__`, `__proto__` and
every name that is no `Object.prototype` member at all. -/
def decodeRecord (env : Value) : Except CodecError DecodeResult :=
  match parseKind (jsToString (jsGetProp env "name")) with
  | some k => .ok (.decoded (runDecoder k env))
  | none => protoDecodeCall env (jsToString (jsGetProp env "name"))

/-- `typeof value === "object"` (null itself also has typeof object, but every caller
tests falsiness first). -/
def isObjectLike : Value → Bool
  | .varr _ => true
  | .vobj _ => true
  | .vmap _ => true
  | .vbuf _ => true
  | .vview _ => true
  | .vtyped _ _ => true
  | .vnull => true
  | _ => false

/-- `"name" in value` for the value shapes that pass the object test: only a plain
object can carry the discriminator key. -/
def objHasName : Value → Bool
  | .vobj es => hasKey es "name"
  | _ => false

/-- Own enumerable entries of a value, as `Object.entries` yields them for the merge
walk: an object's entries, a sequence's index entries.  A `Map`, `ArrayBuffer` or
`DataView` has no own enumerable properties.  A typed array enumerates numeric indices
whose values are numbers; merging a number is a no-op on every path, so the model
returns no entries for it. -/
def mergeEntries : Value → List (String × Value)
  | .vobj es => es
  | .varr vs => indexedEntries vs
  | _ => []

/-- `assignDefined`: copy the defined (non-null, non-undefined) fields of the partial
snapshot onto the target, in entry order. -/
def assignDefined (t : DataResponse) (p : PartialDR) : DataResponse :=
  let t1 := match p.position with | some x => { t with position := .jval x } | none => t
  let t2 :=
    match p.detections with | some x => { t1 with detections := .jval x } | none => t1
  let t3 := match p.stats with | some x => { t2 with stats := .jval x } | none => t2
  let t4 := match p.color with | some x => { t3 with color := .jval x } | none => t3
  match p.depth with | some x => { t4 with depth := .jval x } | none => t4

/-- Whether a truthy origin hint, lower-cased, contains the needle (`if (originKey)`
skips the test for an absent or empty hint). -/
def hintIncludes (originKey : Option String) (needle : String) : Bool :=
  match originKey with
  | some k => k != "" && strIncludes (strToLower k) needle
  | none => false

/-- The `Offset` handler body after a successful decode: a truthy origin hint
containing `gps` or `camera` routes directly; otherwise first-seen-wins slot filling
(camera offset if that slot is falsy, else GPS offset if falsy, else drop). -/
def applyOffsetHandler (t : DataResponse) (off : OffsetT) (originKey : Option String) :
    DataResponse :=
  let bySlot :=
    if falsyProp t.cameraOffset then { t with cameraOffset := .jval off }
    else if falsyProp t.gpsOffset then { t with gpsOffset := .jval off }
    else t
  match originKey with
  | some k =>
    if k != "" then
      if strIncludes (strToLower k) "gps" then { t with gpsOffset := .jval off }
      else if strIncludes (strToLower k) "camera" then { t with cameraOffset := .jval off }
      else bySlot
    else bySlot
  | none => bySlot

/-- The per-kind merge handlers (`recordHandlers`).  `ImageDetection` and
`MapDetection` have empty handlers (they are only decoded inside a Detection). -/
def applyHandler (k : RecordKind) (t : DataResponse) (record : Value)
    (originKey : Option String) : DataResponse :=
  match k with
  | .aiRecord =>
    match decodeAIRecord record with
    | some p => assignDefined t p
    | none => t
  | .position =>
    match decodePosition record with
    | some p => { t with position := .jval p }
    | none => t
  | .offset =>
    match decodeOffset record with
    | some off => applyOffsetHandler t off originKey
    | none => t
  | .statistics =>
    match decodeStats record with
    | some s => { t with stats := .jval s }
    | none => t
  | .colorCorrection =>
    match decodeColorCorrection record with
    | some c => { t with colorCorrection := .jval c }
    | none => t
  | .detection =>
    match decodeDetection record with
    | some d =>
      let cur := match t.detections with | .jval l => l | _ => []
      { t with detections := .jval (cur ++ [d]) }
    | none => t
  | .imageDetection => t
  | .mapDetection => t
  | .color =>
    match decodeColor record with
    | some c =>
      if hintIncludes originKey "depth" then { t with depth := .jval c }
      else { t with color := .jval c }
    | none => t
  | .image =>
    match decodeImage record with
    | some im =>
      let c : ColorT := { image := some im }
      if hintIncludes originKey "depth" then { t with depth := .jval c }
      else { t with color := .jval c }
    | none => t

/-- `mergeRecord`: the lookup `recordHandlers[record.name]` walks the prototype
chain.  An own key runs its handler.  Inherited `constructor` and `toString` pass the
truthiness guard, but their extracted strict-mode calls return harmlessly discarded
values (`Object(target)` is `target`; `toString` of an undefined `this` is
`"[object Undefined]"`), so the snapshot is unchanged, exactly like a skip.  The other
ten inherited `Object.prototype` members throw a TypeError when called this way
(`protoThrowersUndefThis`).  A name that is no member at all reads as the falsy
undefined and the record is skipped. -/
def mergeRecord (t : DataResponse) (record : Value) (originKey : Option String) :
    Except CodecError DataResponse :=
  match parseKind (jsToString (jsGetProp record "name")) with
  | some k => .ok (applyHandler k t record originKey)
  | none =>
    if jsToString (jsGetProp record "name") ∈ protoThrowersUndefThis then
      .error .typeError
    else .ok t

/-- Every value is built by a constructor of positive size. -/
lemma value_sizeOf_pos (v : Value) : 0 < sizeOf v := by
  cases v <;> simp

/-- The entry values of a list of object entries are jointly smaller than the list. -/
lemma entries_val_size_lt (es : List (String × Value)) :
    ((es.map (fun kv => sizeOf kv.2)).sum) < sizeOf es := by
  induction es with
  | nil => simp
  | cons kv rest ih =>
    cases kv with
    | mk k v => simp at ih ⊢; omega

/-- The elements of a list of values are jointly smaller than the list. -/
lemma list_val_size_lt (vs : List Value) : ((vs.map sizeOf).sum) < sizeOf vs := by
  induction vs with
  | nil => simp
  | cons v rest ih => simp at ih ⊢; omega

/-- The merge entries of a value are jointly smaller than the value, which makes the
key-by-key merge walk terminate. -/
lemma mergeEntries_size (v : Value) :
    ((mergeEntries v).map (fun kv => sizeOf kv.2)).sum < sizeOf v := by
  cases v
  case vobj es =>
    have h := entries_val_size_lt es
    simp [mergeEntries]
    omega
  case varr vs =>
    have h := list_val_size_lt vs
    have he : (indexedEntries vs).map (fun kv => sizeOf kv.2) = vs.map sizeOf := by
      unfold indexedEntries
      rw [List.map_map]
      calc vs.enum.map ((fun kv : String × Value => sizeOf kv.2) ∘
              (fun p : ℕ × Value => (toString p.1, p.2)))
          = vs.enum.map (fun p : ℕ × Value => sizeOf p.2) := by
            apply List.map_congr_left; intro a _; rfl
        _ = (vs.enum.map Prod.snd).map sizeOf := by rw [List.map_map]; rfl
        _ = vs.map sizeOf := by rw [List.enum_map_snd]
    simp [mergeEntries, he]
    omega
  all_goals (simp [mergeEntries]) <;> omega

/-- The case labels of `mergeKeyValue`'s switch: which logical field a key addresses
(`kother` is the default arm). -/
inductive MergeKey where
  | kcommand | kvalid | kcameraOffset | kgpsOffset | kcolorCorrection
  | kcolor | kdepth | kdetections | kposition | kstats | kother
deriving DecidableEq, Repr

/-- The recognised key spellings of `mergeKeyValue`'s switch, in source order. -/
def classifyKey (key : String) : MergeKey :=
  if key = "Command" ∨ key = "command" ∨ key = "Message" ∨ key = "message" then
    .kcommand
  else if key = "Valid" ∨ key = "valid" then .kvalid
  else if key = "CameraOffset" ∨ key = "cameraOffset" ∨ key = "camera_offset" then
    .kcameraOffset
  else if key = "GpsOffset" ∨ key = "gpsOffset" ∨ key = "gps_offset" then .kgpsOffset
  else if key = "ColorCorrection" ∨ key = "colorCorrection" ∨
      key = "color_correction" then .kcolorCorrection
  else if key = "Color" ∨ key = "color" then .kcolor
  else if key = "Depth" ∨ key = "depth" then .kdepth
  else if key = "Detections" ∨ key = "detections" then .kdetections
  else if key = "Position" ∨ key = "position" then .kposition
  else if key = "Stats" ∨ key = "stats" then .kstats
  else .kother

/-- The recognised-key arms of `mergeKeyValue`'s switch; `none` stands for the default
arm (which recurses through `mergeValue`). -/
def mergeKeyValueCore (t : DataResponse) (key : String) (value : Value) :
    Option DataResponse :=
  match classifyKey key with
  | .kcommand =>
    some
      (match value with
       | .vnull => t
       | .vundef => t
       | v => { t with command := .jval (jsToString v) })
  | .kvalid => some { t with valid := propOfU (asBoolean value) }
  | .kcameraOffset => some { t with cameraOffset := propOf (decodeOffset value) }
  | .kgpsOffset => some { t with gpsOffset := propOf (decodeOffset value) }
  | .kcolorCorrection =>
    some { t with colorCorrection := propOf (decodeColorCorrection value) }
  | .kcolor => some { t with color := propOf (decodeColor value) }
  | .kdepth => some { t with depth := propOf (decodeColor value) }
  | .kdetections => some { t with detections := .jval (decodeDetections value) }
  | .kposition => some { t with position := propOf (decodePosition value) }
  | .kstats => some { t with stats := propOf (decodeStats value) }
  | .kother => none

mutual

/-- `mergeValue`: skip falsy or non-object values; route named records to their
handler; otherwise merge each own entry key-by-key. -/
def mergeValue (t : DataResponse) (value : Value) (originKey : Option String) :
    Except CodecError DataResponse :=
  if !truthy value || !isObjectLike value then .ok t
  else if objHasName value then mergeRecord t value originKey
  else mergeKVList t (mergeEntries value)
termination_by (3 * sizeOf value, 0)
decreasing_by
  all_goals simp_wf
  all_goals (have h := mergeEntries_size value; omega)

/-- Left fold of `mergeKeyValue` over entry lists (the `forEach` of the source). -/
def mergeKVList (t : DataResponse) : List (String × Value) → Except CodecError DataResponse
  | [] => .ok t
  | (k, v) :: rest =>
    match mergeKeyValue t k v with
    | .error e => .error e
    | .ok t2 => mergeKVList t2 rest
termination_by es => (3 * ((es.map (fun kv => sizeOf kv.2)).sum) + 2, sizeOf es)
decreasing_by
  all_goals simp_wf
  · have h := value_sizeOf_pos v; omega
  · have h := value_sizeOf_pos v; omega

/-- `mergeKeyValue`: the explicit switch over recognised key spellings
(`mergeKeyValueCore`); an unmatched key recurses through `mergeValue`, carrying the
key forward as origin hint. -/
def mergeKeyValue (t : DataResponse) (key : String) (value : Value) :
    Except CodecError DataResponse :=
  match mergeKeyValueCore t key value with
  | some t2 => .ok t2
  | none => mergeValue t value (some key)
termination_by (3 * sizeOf value + 1, 0)
decreasing_by
  all_goals simp_wf
  all_goals exact Prod.Lex.left _ _ (by omega)

end

/-- The `forEach` walk of `buildDataResponse` over a sequence: each element routes to
`mergeRecord` when it is a truthy object carrying a discriminator, else to
`mergeValue`; a throw from either aborts the whole walk (there is no try/catch
anywhere in the module). -/
def mergeSeq (t : DataResponse) : List Value → Except CodecError DataResponse
  | [] => .ok t
  | entry :: rest =>
    match
      (if truthy entry && isObjectLike entry && objHasName entry then
        mergeRecord t entry none
      else mergeValue t entry none) with
    | .error e => .error e
    | .ok t2 => mergeSeq t2 rest

/-- `buildDataResponse`: null input gives null; a sequence folds each element through
`mergeSeq` into a fresh snapshot; an object with a discriminator routes to
`mergeRecord`; any other object merges key-by-key; a primitive gives null.  Errors
thrown by the merge walk propagate out. -/
def buildDataResponse (raw : Value) : Except CodecError (Option DataResponse) :=
  match raw with
  | .vnull => .ok none
  | .vundef => .ok none
  | .varr entries =>
    match mergeSeq {} entries with
    | .error e => .error e
    | .ok t => .ok (some t)
  | v =>
    if isObjectLike v then
      if objHasName v then
        match mergeRecord {} v none with
        | .error e => .error e
        | .ok t => .ok (some t)
      else
        match mergeKVList {} (mergeEntries v) with
        | .error e => .error e
        | .ok t => .ok (some t)
    else .ok none

/-- `deserializeDataResponse`: null input gives null, otherwise unwrap the transport
envelope, normalize, and build the snapshot. -/
def deserializeDataResponse (payload : Value) : Except CodecError (Option DataResponse) :=
  match payload with
  | .vnull => .ok none
  | .vundef => .ok none
  | _ => buildDataResponse (normalize (unwrapSocketMessagePayload payload))

/-- The table lookup misses exactly on the discriminators outside the known ten. -/
lemma parseKind_none_iff (s : String) : parseKind s = none ↔ s ∉ recordNames := by
  unfold parseKind recordNames
  split <;> simp_all

/-- Product of a dimension list (the spec's `product(shape[1:])`). -/
def prodN (dims : List ℕ) : ℕ := dims.prod

/-- Comparison definition following the spec's words for tensor reshaping: an N-deep
nested sequence built by recursively slicing the flat array into `shape[0]` groups of
size `product(shape[1:])`, recursing until a 1-dimensional slice is converted to a flat
sequence of numbers. -/
def nestSpecOfShape (flat : List JNum) : List ℕ → Value
  | [] => .vnull
  | [d] => .varr ((flat.take d).map .vnum)
  | d :: rest =>
    .varr ((List.range d).map
      (fun i => nestSpecOfShape ((flat.drop (i * prodN rest)).take (prodN rest)) rest))

/-- The nested slicing only reads the first `product(shape)` elements, so taking a
prefix at least that long changes nothing. -/
lemma nestSpec_take (dims : List ℕ) (l : List JNum) (n : ℕ) (h : prodN dims ≤ n) :
    nestSpecOfShape (l.take n) dims = nestSpecOfShape l dims := by
  match dims with
  | [] => rfl
  | [d] =>
    have hd : d ≤ n := by simpa [prodN] using h
    simp [nestSpecOfShape, List.take_take, Nat.min_eq_left hd]
  | d :: d2 :: rest =>
    have hprod : prodN (d :: d2 :: rest) = d * prodN (d2 :: rest) := by
      simp [prodN]
    simp only [nestSpecOfShape]
    congr 1
    apply List.map_congr_left
    intro i hi
    have hi' : i < d := List.mem_range.mp hi
    have hs' : i * prodN (d2 :: rest) + prodN (d2 :: rest) ≤ n := by
      have h1 : (i + 1) * prodN (d2 :: rest) ≤ d * prodN (d2 :: rest) :=
        Nat.mul_le_mul_right _ (by omega)
      have h2 : (i + 1) * prodN (d2 :: rest)
          = i * prodN (d2 :: rest) + prodN (d2 :: rest) := by ring
      omega
    rw [List.drop_take, List.take_take, Nat.min_eq_left (by omega)]

/-- A natural-number dimension value passes `sizeNatOfDim` unchanged. -/
lemma sizeNatOfDim_natCast (d : ℕ) :
    sizeNatOfDim (.vnum (.fin (d : ℚ))) = d := by
  simp [sizeNatOfDim, jsTrunc, Int.floor_natCast]

/-- On natural-number dimensions the source's step reduction computes the product. -/
lemma prodDims_map (dims : List ℕ) :
    prodDims (dims.map (fun d : ℕ => Value.vnum (.fin (d : ℚ)))) = prodN dims := by
  unfold prodDims
  rw [List.foldl_map]
  simp only [sizeNatOfDim_natCast]
  rw [prodN, List.prod_eq_foldl]

/-- `reshapeTypedArray` computes exactly the spec's recursive group slicing on every
non-empty natural-number shape. -/
lemma reshape_eq_nestSpec :
    ∀ (dims : List ℕ) (l : List JNum) (off : ℕ), dims ≠ [] →
      reshapeTypedArray l (dims.map (fun d : ℕ => Value.vnum (.fin (d : ℚ)))) off
        = nestSpecOfShape (l.drop off) dims := by
  intro dims
  induction dims with
  | nil => intro l off h; exact absurd rfl h
  | cons d rest ih =>
    intro l off _
    cases rest with
    | nil => simp [reshapeTypedArray, nestSpecOfShape, sizeNatOfDim_natCast]
    | cons d2 rs =>
      have hpd : prodDims (Value.vnum (.fin (d2 : ℚ)) ::
          (rs.map (fun d : ℕ => Value.vnum (.fin (d : ℚ))))) = prodN (d2 :: rs) := by
        simpa using prodDims_map (d2 :: rs)
      have ih' : ∀ off2 : ℕ,
          reshapeTypedArray l (Value.vnum (.fin (d2 : ℚ)) ::
            (rs.map (fun d : ℕ => Value.vnum (.fin (d : ℚ))))) off2
            = nestSpecOfShape (l.drop off2) (d2 :: rs) := by
        intro off2
        simpa using ih l off2 (by simp)
      simp only [List.map_cons, reshapeTypedArray, nestSpecOfShape, sizeNatOfDim_natCast]
      congr 1
      apply List.map_congr_left
      intro i hi
      rw [ih', hpd, nestSpec_take _ _ _ (le_refl _), List.drop_drop]

/-- C4: for every tensor container with `nd` true, a recognised dtype tag, a byte
buffer whose length is a multiple of the element width (a misaligned buffer makes the
source's typed-array constructor throw a RangeError, see `typedLen`), and a non-empty
natural-number shape of length N, `decodeNumpyContainer` yields the N-deep nested
sequence built by slicing the flat little-endian element array into `shape[0]` groups
of size `product(shape[1:])` recursively (`nestSpecOfShape`, written from the spec's
words).  The witness instantiates the float32 example: tag `<f4`, shape `[2,3]`,
24 bytes encoding little-endian floats 1..6 decode to `[[1,2,3],[4,5,6]]`. -/
theorem C4_tensor_reshape (tag : String) (tk : TK) (bytes : List ℕ) (dims : List ℕ)
    (htag : parseDtype tag = some tk) (halign : tk.width ∣ bytes.length)
    (hdims : dims ≠ []) :
    decodeNumpyContainer
      [("nd", Value.vbool true), ("type", Value.vstr tag),
       ("shape", Value.varr (dims.map (fun d : ℕ => Value.vnum (.fin (d : ℚ))))),
       ("data", Value.vtyped .u8 bytes)]
      = nestSpecOfShape (typedToList tk bytes) dims := by
  have h0 : reshapeTypedArray (typedToList tk bytes)
      (dims.map (fun d : ℕ => Value.vnum (.fin (d : ℚ)))) 0
      = nestSpecOfShape (typedToList tk bytes) dims := by
    rw [reshape_eq_nestSpec dims _ 0 hdims]
    simp
  simp [decodeNumpyContainer, getKey, truthy, htag, toUint8ArrayV, hdims, h0]

/-- Witness for C4: the concrete float32 `[2,3]` tensor of the spec decodes to
`[[1,2,3],[4,5,6]]`. -/
theorem C4_tensor_reshape_witness :
    parseDtype "<f4" = some TK.f32 ∧ TK.f32.width ∣ 24 ∧ ([2, 3] : List ℕ) ≠ [] ∧
    decodeNumpyContainer
      [("nd", Value.vbool true), ("type", Value.vstr "<f4"),
       ("shape", Value.varr [Value.vnum (.fin 2), Value.vnum (.fin 3)]),
       ("data", Value.vtyped .u8
         [0,0,128,63, 0,0,0,64, 0,0,64,64, 0,0,128,64, 0,0,160,64, 0,0,192,64])]
      = .varr [.varr [.vnum (.fin 1), .vnum (.fin 2), .vnum (.fin 3)],
               .varr [.vnum (.fin 4), .vnum (.fin 5), .vnum (.fin 6)]] := by
  have htag : parseDtype "<f4" = some TK.f32 := by
    simp [parseDtype, strToLower, charToLower]
  have hflat : typedToList .f32
      [0,0,128,63, 0,0,0,64, 0,0,64,64, 0,0,128,64, 0,0,160,64, 0,0,192,64]
      = [.fin 1, .fin 2, .fin 3, .fin 4, .fin 5, .fin 6] := by
    norm_num [typedToList, typedLen, typedGet, decodeElem, bytesToNatLE, f32FromBits,
      TK.width, List.range_succ]
  have hsh : (([2, 3] : List ℕ)).map (fun d : ℕ => Value.vnum (.fin (d : ℚ)))
      = [Value.vnum (.fin 2), Value.vnum (.fin 3)] := by norm_num
  have hd := C4_tensor_reshape "<f4" .f32
    [0,0,128,63, 0,0,0,64, 0,0,64,64, 0,0,128,64, 0,0,160,64, 0,0,192,64]
    [2, 3] htag (by decide) (by simp)
  rw [hsh, hflat] at hd
  refine ⟨htag, by decide, by simp, ?_⟩
  rw [hd]
  norm_num [nestSpecOfShape, prodN, List.range_succ]

/-- C5: merging a sequence of two origin-hint-free `Offset` records onto an empty
snapshot populates the camera offset slot with the first decoded record and the GPS
offset slot with the second (first-seen-wins slot filling); no other slot is touched. -/
theorem C5_offset_slot_filling (es1 es2 : List (String × Value)) :
    ∃ o1 o2,
      decodeOffset (.vobj (("name", Value.vstr "Offset") :: es1)) = some o1 ∧
      decodeOffset (.vobj (("name", Value.vstr "Offset") :: es2)) = some o2 ∧
      buildDataResponse (.varr
        [.vobj (("name", Value.vstr "Offset") :: es1),
         .vobj (("name", Value.vstr "Offset") :: es2)])
        = .ok (some { cameraOffset := .jval o1, gpsOffset := .jval o2 }) := by
  refine ⟨_, _, rfl, rfl, ?_⟩
  simp [buildDataResponse, mergeSeq, mergeRecord, jsGetProp, getKey, jsToString,
    parseKind, applyHandler, applyOffsetHandler, truthy, isObjectLike, objHasName,
    hasKey, falsyProp, decodeOffset, resolveRecord]

/-- C6 (amended): a sequence element whose discriminator is neither one of the ten
known record kinds nor one of the throwing inherited `Object.prototype` members is
skipped without error (its merge leaves the target untouched), and the remaining
elements still merge: an unknown-discriminator record followed by a valid `Position`
record yields a snapshot with only the position slot populated.  The blanket claim
over every unknown discriminator is refuted by `C6_skip_counterexample`. -/
theorem C6_unknown_kind_skipped :
    (∀ (t : DataResponse) (name : String) (fields : List (String × Value))
       (origin : Option String), name ∉ recordNames →
       name ∉ protoThrowersUndefThis →
       mergeRecord t (.vobj (("name", Value.vstr name) :: fields)) origin = .ok t) ∧
    buildDataResponse (.varr
      [.vobj [("name", Value.vstr "Bogus")],
       .vobj [("name", Value.vstr "Position"), ("x", Value.vnum (.fin 1))]])
      = .ok (some { position := .jval { x := some (.fin 1) } }) := by
  constructor
  · intro t name fields origin h hp
    simp [mergeRecord, jsGetProp, getKey, jsToString, (parseKind_none_iff name).mpr h,
      hp]
  · simp [buildDataResponse, mergeSeq, mergeRecord, jsGetProp, getKey, jsToString,
      parseKind, applyHandler, truthy, isObjectLike, objHasName, hasKey,
      decodePosition, resolveRecord, readField, asNumber, asBoolean, JNum.isNaNb,
      protoThrowersUndefThis]

/-- Counterexample to the original C6: the unknown discriminator `valueOf` is not
skipped — the prototype-chain lookup finds the truthy `Object.prototype.valueOf`,
whose strict-mode call with an undefined `this` throws, so the merge aborts with a
TypeError and the following valid `Position` record is never merged. -/
theorem C6_skip_counterexample :
    "valueOf" ∉ recordNames ∧
    mergeRecord {} (.vobj [("name", Value.vstr "valueOf")]) none
      = .error .typeError ∧
    buildDataResponse (.varr
      [.vobj [("name", Value.vstr "valueOf")],
       .vobj [("name", Value.vstr "Position"), ("x", Value.vnum (.fin 1))]])
      = .error .typeError := by
  refine ⟨by decide, ?_, ?_⟩
  · simp [mergeRecord, jsGetProp, getKey, jsToString, parseKind,
      protoThrowersUndefThis]
  · simp [buildDataResponse, mergeSeq, mergeRecord, jsGetProp, getKey, jsToString,
      parseKind, truthy, isObjectLike, objHasName, hasKey, protoThrowersUndefThis]

/-- Witness for C6 (amended): the skip applies to the concrete discriminator
`Bogus`. -/
theorem C6_unknown_kind_skipped_witness :
    "Bogus" ∉ recordNames ∧ "Bogus" ∉ protoThrowersUndefThis ∧
    mergeRecord {} (.vobj [("name", Value.vstr "Bogus")]) none = .ok {} := by
  have h : "Bogus" ∉ recordNames := by decide
  have hp : "Bogus" ∉ protoThrowersUndefThis := by decide
  exact ⟨h, hp, C6_unknown_kind_skipped.1 {} "Bogus" [] none h hp⟩

/-- C7: in every successful `Position` decode, the derived `connected` flag equals
`(status & STATUS_CONNECTED) == STATUS_CONNECTED` (on ToUint32 of the status) when the
status field resolves to a number; otherwise it equals the explicitly supplied
connected field when that parses as a boolean; otherwise it is absent. -/
theorem C7_position_connected (v : Value) (data : List (String × Value))
    (h : resolveRecord v = some data) :
    ∃ p, decodePosition v = some p ∧
      p.connected =
        (match asNumber (readField data ["status", "Status"]) with
         | some st => some (Nat.land (toUint32 st) STATUS_CONNECTED == STATUS_CONNECTED)
         | none => asBoolean (readField data ["connected", "Connected"])) := by
  cases hs : asNumber (readField data ["status", "Status"]) with
  | some st =>
    refine ⟨{ status := asNumber (readField data ["status", "Status"]),
              x := asNumber (readField data ["x", "X"]),
              y := asNumber (readField data ["y", "Y"]),
              z := asNumber (readField data ["z", "Z"]),
              azimuth := asNumber (readField data ["azimuth", "Azimuth"]),
              elevation := asNumber (readField data ["elevation", "Elevation"]),
              rotation := asNumber (readField data ["rotation", "Rotation"]),
              connected := some (statusConnectedBit st) }, ?_, ?_⟩
    · simp [decodePosition, h, hs]
    · simp [hs, statusConnectedBit]
  | none =>
    cases hc : asBoolean (readField data ["connected", "Connected"]) with
    | some c =>
      refine ⟨{ status := asNumber (readField data ["status", "Status"]),
                x := asNumber (readField data ["x", "X"]),
                y := asNumber (readField data ["y", "Y"]),
                z := asNumber (readField data ["z", "Z"]),
                azimuth := asNumber (readField data ["azimuth", "Azimuth"]),
                elevation := asNumber (readField data ["elevation", "Elevation"]),
                rotation := asNumber (readField data ["rotation", "Rotation"]),
                connected := some c }, ?_, ?_⟩
      · simp [decodePosition, h, hs, hc]
      · simp [hs, hc]
    | none =>
      refine ⟨{ status := asNumber (readField data ["status", "Status"]),
                x := asNumber (readField data ["x", "X"]),
                y := asNumber (readField data ["y", "Y"]),
                z := asNumber (readField data ["z", "Z"]),
                azimuth := asNumber (readField data ["azimuth", "Azimuth"]),
                elevation := asNumber (readField data ["elevation", "Elevation"]),
                rotation := asNumber (readField data ["rotation", "Rotation"]),
                connected := none }, ?_, ?_⟩
      · simp [decodePosition, h, hs, hc]
      · simp [hs, hc]

/-- Witness for C7: a position object with status 3 decodes with `connected = true`
computed from the status bit. -/
theorem C7_position_connected_witness :
    resolveRecord (.vobj [("status", Value.vnum (.fin 3))])
      = some [("status", Value.vnum (.fin 3))] ∧
    ∃ p, decodePosition (.vobj [("status", Value.vnum (.fin 3))]) = some p ∧
      p.connected =
        (match asNumber (readField [("status", Value.vnum (.fin 3))]
            ["status", "Status"]) with
         | some st => some (Nat.land (toUint32 st) STATUS_CONNECTED == STATUS_CONNECTED)
         | none =>
           asBoolean (readField [("status", Value.vnum (.fin 3))]
             ["connected", "Connected"])) := by
  have h : resolveRecord (.vobj [("status", Value.vnum (.fin 3))])
      = some [("status", Value.vnum (.fin 3))] := by
    simp [resolveRecord, hasKey]
  exact ⟨h, C7_position_connected _ _ h⟩

/-- C8 (amended): `encodeRecord` raises the explicit unsupported-kind error naming
the bad discriminator exactly when the requested kind is neither one of the ten known
discriminators nor an inherited `Object.prototype` member name; for every known kind
and every value it returns an envelope without raising.  The original claim over
every unknown discriminator is refuted by `C8_encode_counterexample`: inherited
member names escape the falsy `!encoder` guard. -/
theorem C8_encode_unknown_throws (name : String) (v : RecordValue) :
    (name ∉ recordNames → name ∉ objectProtoMembers →
      encodeRecord name v = .error (.unsupportedKind name)) ∧
    (name ∈ recordNames → ∃ env, encodeRecord name v = .ok env) := by
  constructor
  · intro h hp
    simp only [objectProtoMembers, List.mem_cons, not_or] at hp
    obtain ⟨hc, ht, hr⟩ := hp
    simp [encodeRecord, (parseKind_none_iff name).mpr h, hc, ht, hr]
  · intro h
    match hk : parseKind name with
    | none => exact absurd ((parseKind_none_iff name).mp hk) (fun hn => hn h)
    | some k => exact ⟨envelopeOf name (rawEncode k v), by simp [encodeRecord, hk]⟩

/-- Counterexample to the original C8: the unknown discriminator `toString` raises no
error at all — the prototype-chain lookup finds the truthy inherited
`Object.prototype.toString`, the `!encoder` guard does not fire, and an envelope is
built from the characters of the call's result `"[object Undefined]"`; the inherited
`valueOf` throws a TypeError instead of the explicit unsupported-kind error. -/
theorem C8_encode_counterexample :
    "toString" ∉ recordNames ∧
    encodeRecord "toString" (.position {})
      = .ok (envelopeOf "toString" (stringCharEntries "[object Undefined]")) ∧
    encodeRecord "valueOf" (.position {}) = .error .typeError := by
  refine ⟨by decide, ?_, ?_⟩
  · simp [encodeRecord, parseKind]
  · simp [encodeRecord, parseKind, protoThrowersUndefThis]

/-- Witness for C8 (amended): `Bogus` raises the unsupported-kind error naming it;
`Position` encodes without raising. -/
theorem C8_encode_unknown_throws_witness :
    ("Bogus" ∉ recordNames ∧ "Bogus" ∉ objectProtoMembers ∧
      encodeRecord "Bogus" (.position {}) = .error (.unsupportedKind "Bogus")) ∧
    ("Position" ∈ recordNames ∧
      ∃ env, encodeRecord "Position" (.position {}) = .ok env) := by
  have h1 : "Bogus" ∉ recordNames := by decide
  have hp1 : "Bogus" ∉ objectProtoMembers := by decide
  have h2 : "Position" ∈ recordNames := by decide
  exact ⟨⟨h1, hp1, (C8_encode_unknown_throws "Bogus" (.position {})).1 h1 hp1⟩,
         ⟨h2, (C8_encode_unknown_throws "Position" (.position {})).2 h2⟩⟩

/-- C9 (amended): `decodeRecord` performs an unguarded table lookup on the envelope's
name.  For every envelope whose name is neither one of the ten known kinds nor an
`Object.prototype` member, the lookup yields undefined and the call throws a
TypeError — it neither returns null nor raises the explicit unsupported-kind error
(`CodecError.typeError` is a different constructor from every
`CodecError.unsupportedKind _`).  For inherited member names the lookup survives and
most calls return junk without throwing (`C9_decode_counterexample`); only
`__defineGetter__`, `__defineSetter__` and `__proto__` throw. -/
theorem C9_decode_unknown_typeerror (name : String) (fields : List (String × Value))
    (h : name ∉ recordNames) (hp : name ∉ objectProtoMembers) :
    decodeRecord (.vobj (("name", Value.vstr name) :: fields))
      = .error .typeError := by
  simp only [objectProtoMembers, protoThrowersUndefThis, List.mem_cons,
    List.not_mem_nil, or_false, not_or] at hp
  obtain ⟨h1, h2, h3, h4, h5, h6, h7, h8, h9, h10, h11, h12⟩ := hp
  simp [decodeRecord, jsGetProp, getKey, jsToString, (parseKind_none_iff name).mpr h,
    protoDecodeCall, h1, h2, h3, h4, h5, h6, h7, h8, h9, h10, h11, h12]

/-- Counterexample to the original C9: the unknown discriminator `toString` does not
make the call throw — the prototype chain supplies `Object.prototype.toString`, which
(invoked as a method of the decoder table) returns the text `"[object Object]"`;
`constructor` returns the record itself and `valueOf` returns the decoder table, also
without throwing. -/
theorem C9_decode_counterexample :
    "toString" ∉ recordNames ∧
    decodeRecord (.vobj [("name", Value.vstr "toString")])
      = .ok (.protoJunk (.text "[object Object]")) ∧
    decodeRecord (.vobj [("name", Value.vstr "constructor")])
      = .ok (.protoJunk (.theRecord (.vobj [("name", Value.vstr "constructor")]))) ∧
    decodeRecord (.vobj [("name", Value.vstr "valueOf")])
      = .ok (.protoJunk .theTable) := by
  refine ⟨by decide, ?_, ?_, ?_⟩ <;>
    simp [decodeRecord, jsGetProp, getKey, jsToString, parseKind, protoDecodeCall]

/-- Witness for C9 (amended): the concrete unknown discriminator `Bogus` makes
`decodeRecord` throw the TypeError. -/
theorem C9_decode_unknown_typeerror_witness :
    "Bogus" ∉ recordNames ∧ "Bogus" ∉ objectProtoMembers ∧
    decodeRecord (.vobj [("name", Value.vstr "Bogus")]) = .error .typeError := by
  have h : "Bogus" ∉ recordNames := by decide
  have hp : "Bogus" ∉ objectProtoMembers := by decide
  exact ⟨h, hp, C9_decode_unknown_typeerror "Bogus" [] h hp⟩

/-- C10: in the flat-keyed merge path, the recognised key `position` whose value fails
to decode overwrites the position slot with null, regardless of what the slot held
before — merging is not atomic per slot on decode failure. -/
theorem C10_failed_decode_overwrites_null (t : DataResponse) (v : Value)
    (h : decodePosition v = none) :
    ∃ t2, mergeKeyValue t "position" v = .ok t2 ∧ t2.position = JProp.jnull := by
  have hc : mergeKeyValueCore t "position" v
      = some { t with position := propOf (decodePosition v) } := by
    simp [mergeKeyValueCore, classifyKey]
  refine ⟨{ t with position := propOf (decodePosition v) }, ?_, by simp [h, propOf]⟩
  rw [mergeKeyValue, hc]

/-- Witness for C10: a previously merged position is replaced by null when the
`position` key maps to a number. -/
theorem C10_failed_decode_overwrites_null_witness :
    decodePosition (.vnum (.fin 5)) = none ∧
    ({ position := .jval {} : DataResponse }).position = JProp.jval {} ∧
    (∃ t2, mergeKeyValue { position := .jval {} } "position" (.vnum (.fin 5))
        = .ok t2 ∧ t2.position = JProp.jnull) := by
  have h : decodePosition (.vnum (.fin 5)) = none := by
    simp [decodePosition, resolveRecord]
  exact ⟨h, rfl, C10_failed_decode_overwrites_null { position := .jval {} } _ h⟩

end VexCodec

namespace VexCodec

def noNaNopt (o : Option JNum) : Bool :=
  match o with
  | some n => !n.isNaNb
  | none => true

def noNaNlist (l : List JNum) : Bool := l.all (fun n => !n.isNaNb)

lemma noNaNopt_none : noNaNopt none = true := rfl

lemma asNumber_no_nan (v : Value) : noNaNopt (asNumber v) = true := by
  induction v using asNumber.induct
  case case1 n h => simp [asNumber, h, noNaNopt]
  case case2 n h => simp_all [asNumber, noNaNopt]
  case case3 s h => simp_all [asNumber, noNaNopt]
  case case4 s h => simp_all [asNumber, noNaNopt]
  case case5 v tail ih => simpa [asNumber] using ih
  case case6 k bs h1 h2 => simp_all [asNumber, noNaNopt]
  case case7 k bs h1 h2 => simp_all [asNumber, noNaNopt]
  case case8 k bs h1 => simp_all [asNumber, noNaNopt]
  case case9 t h1 h2 h3 h4 => cases t <;> simp_all [asNumber, noNaNopt]

lemma toNumericArray_no_nan (v : Value) : noNaNlist (toNumericArray v) = true := by
  match v with
  | .varr vs =>
    simp only [toNumericArray, noNaNlist, List.all_eq_true]
    intro x hx
    rw [List.mem_filterMap] at hx
    obtain ⟨o, ho, hmo⟩ := hx
    match o, hmo with
    | some (.fin q), hmo =>
      simp only [Option.some.injEq] at hmo
      rw [← hmo]
      simp [JNum.isNaNb]
    | some .nan, hmo => exact absurd hmo (by simp)
    | some (.inf b), hmo => exact absurd hmo (by simp)
    | none, hmo => exact absurd hmo (by simp)
  | .vtyped k bs =>
    simp only [toNumericArray, noNaNlist, List.all_eq_true]
    intro x hx
    rw [List.mem_filter] at hx
    simpa using hx.2
  | .vnum n =>
    have h := asNumber_no_nan (.vnum n)
    simp only [toNumericArray]
    cases ha : asNumber (.vnum n) with
    | some m => simp_all [noNaNopt, noNaNlist]
    | none => simp [noNaNlist]
  | .vstr s =>
    have h := asNumber_no_nan (.vstr s)
    simp only [toNumericArray]
    cases ha : asNumber (.vstr s) with
    | some m => simp_all [noNaNopt, noNaNlist]
    | none => simp [noNaNlist]
  | .vnull => simp [toNumericArray, asNumber, noNaNlist]
  | .vundef => simp [toNumericArray, asNumber, noNaNlist]
  | .vbool b => simp [toNumericArray, asNumber, noNaNlist]
  | .vbuf bs => simp [toNumericArray, asNumber, noNaNlist]
  | .vview bs => simp [toNumericArray, asNumber, noNaNlist]
  | .vmap es => simp [toNumericArray, asNumber, noNaNlist]
  | .vobj es => simp [toNumericArray, asNumber, noNaNlist]

def noNaNoptList (o : Option (List JNum)) : Bool :=
  match o with
  | some l => noNaNlist l
  | none => true

def offsetNoNaN (o : OffsetT) : Bool :=
  noNaNopt o.off_x && noNaNopt o.off_y && noNaNopt o.off_z &&
    noNaNopt o.heading_offset && noNaNopt o.elevation_offset

def ccNoNaN (c : ColorCorrectionT) : Bool :=
  noNaNopt c.h && noNaNopt c.s && noNaNopt c.v

def imageNoNaN (im : ImageT) : Bool := noNaNopt im.width && noNaNopt im.height

def colorNoNaN (c : ColorT) : Bool :=
  match c.image with
  | some im => imageNoNaN im
  | none => true

def screenNoNaN (s : ScreenLocationT) : Bool :=
  noNaNopt s.x && noNaNopt s.y && noNaNopt s.width && noNaNopt s.height

def mapNoNaN (m : MapLocationT) : Bool :=
  noNaNoptList m.x && noNaNoptList m.y && noNaNoptList m.z

def posNoNaN (p : PositionT) : Bool :=
  noNaNopt p.status && noNaNopt p.x && noNaNopt p.y && noNaNopt p.z &&
    noNaNopt p.azimuth && noNaNopt p.elevation && noNaNopt p.rotation

def statsNoNaN (s : StatisticsT) : Bool :=
  noNaNopt s.fps && noNaNopt s.invoke_time && noNaNopt s.video_width &&
    noNaNopt s.video_height && noNaNopt s.run_time && noNaNopt s.cpu_temp

def detNoNaN (d : DetectionT) : Bool :=
  noNaNopt d.class_id && noNaNopt d.prob && noNaNopt d.depth &&
    (match d.screen_location with | some s => screenNoNaN s | none => true) &&
    (match d.map_location with | some m => mapNoNaN m | none => true)

def detsNoNaN (l : List DetectionT) : Bool := l.all detNoNaN

def partialNoNaN (p : PartialDR) : Bool :=
  (match p.position with | some x => posNoNaN x | none => true) &&
  (match p.detections with | some l => detsNoNaN l | none => true) &&
  (match p.stats with | some s => statsNoNaN s | none => true) &&
  (match p.color with | some c => colorNoNaN c | none => true) &&
  (match p.depth with | some c => colorNoNaN c | none => true)

def drNoNaN (t : DataResponse) : Bool :=
  (match t.cameraOffset with | .jval o => offsetNoNaN o | _ => true) &&
  (match t.gpsOffset with | .jval o => offsetNoNaN o | _ => true) &&
  (match t.color with | .jval c => colorNoNaN c | _ => true) &&
  (match t.depth with | .jval c => colorNoNaN c | _ => true) &&
  (match t.detections with | .jval l => detsNoNaN l | _ => true) &&
  (match t.position with | .jval p => posNoNaN p | _ => true) &&
  (match t.stats with | .jval s => statsNoNaN s | _ => true) &&
  (match t.colorCorrection with | .jval c => ccNoNaN c | _ => true)

lemma decodeOffset_no_nan (v : Value) (o : OffsetT) (h : decodeOffset v = some o) :
    offsetNoNaN o = true := by
  match hr : resolveRecord v with
  | none => simp [decodeOffset, hr] at h
  | some data =>
    simp only [decodeOffset, hr, Option.some.injEq] at h
    rw [← h]
    simp [offsetNoNaN, asNumber_no_nan]

lemma decodePosition_no_nan (v : Value) (p : PositionT)
    (h : decodePosition v = some p) : posNoNaN p = true := by
  match hr : resolveRecord v with
  | none => simp [decodePosition, hr] at h
  | some data =>
    simp only [decodePosition, hr] at h
    cases hs : asNumber (readField data ["status", "Status"]) with
    | some st =>
      have hst : noNaNopt (some st) = true := by
        have h2 := asNumber_no_nan (readField data ["status", "Status"])
        rw [hs] at h2
        exact h2
      rw [hs] at h
      simp only [Option.some.injEq] at h
      rw [← h]
      simp [posNoNaN, asNumber_no_nan, hs, hst]
    | none =>
      rw [hs] at h
      cases hc : asBoolean (readField data ["connected", "Connected"]) with
      | some c =>
        rw [hc] at h
        simp only [Option.some.injEq] at h
        rw [← h]
        simp [posNoNaN, asNumber_no_nan, noNaNopt_none]
      | none =>
        rw [hc] at h
        simp only [Option.some.injEq] at h
        rw [← h]
        simp [posNoNaN, asNumber_no_nan, noNaNopt_none]

lemma decodeColorCorrection_no_nan (v : Value) (c : ColorCorrectionT)
    (h : decodeColorCorrection v = some c) : ccNoNaN c = true := by
  match hr : resolveRecord v with
  | none => simp [decodeColorCorrection, hr] at h
  | some data =>
    simp only [decodeColorCorrection, hr] at h
    split at h
    · exact absurd h (by simp)
    · simp only [Option.some.injEq] at h
      rw [← h]
      simp [ccNoNaN, asNumber_no_nan]

lemma decodeImage_no_nan (v : Value) (im : ImageT) (h : decodeImage v = some im) :
    imageNoNaN im = true := by
  match hr : resolveRecord v with
  | none => simp [decodeImage, hr] at h
  | some data =>
    simp only [decodeImage, hr, Option.some.injEq] at h
    rw [← h]
    simp [imageNoNaN, asNumber_no_nan]

lemma decodeColor_no_nan (v : Value) (c : ColorT) (h : decodeColor v = some c) :
    colorNoNaN c = true := by
  match hr : resolveRecord v with
  | none => simp [decodeColor, hr] at h
  | some data =>
    simp only [decodeColor, hr] at h
    cases hi : decodeImage (readField data ["image", "Image"]) with
    | none => rw [hi] at h; exact absurd h (by simp)
    | some im =>
      rw [hi] at h
      simp only [Option.some.injEq] at h
      rw [← h]
      simpa [colorNoNaN] using decodeImage_no_nan _ _ hi

lemma decodeScreenLocation_no_nan (v : Value) (s : ScreenLocationT)
    (h : decodeScreenLocation v = some s) : screenNoNaN s = true := by
  match hr : resolveRecord v with
  | none => simp [decodeScreenLocation, hr] at h
  | some data =>
    simp only [decodeScreenLocation, hr, Option.some.injEq] at h
    rw [← h]
    simp [screenNoNaN, asNumber_no_nan]

lemma decodeMapLocation_no_nan (v : Value) (m : MapLocationT)
    (h : decodeMapLocation v = some m) : mapNoNaN m = true := by
  match hr : resolveRecord v with
  | none => simp [decodeMapLocation, hr] at h
  | some data =>
    simp only [decodeMapLocation, hr, Option.some.injEq] at h
    rw [← h]
    simp [mapNoNaN, noNaNoptList, toNumericArray_no_nan]

lemma decodeStats_no_nan (v : Value) (s : StatisticsT) (h : decodeStats v = some s) :
    statsNoNaN s = true := by
  match hr : resolveRecord v with
  | none => simp [decodeStats, hr] at h
  | some data =>
    simp only [decodeStats, hr, Option.some.injEq] at h
    rw [← h]
    simp [statsNoNaN, asNumber_no_nan]

lemma decodeDetection_no_nan (v : Value) (d : DetectionT)
    (h : decodeDetection v = some d) : detNoNaN d = true := by
  match hr : resolveRecord v with
  | none => simp [decodeDetection, hr] at h
  | some data =>
    simp only [decodeDetection, hr, Option.some.injEq] at h
    rw [← h]
    simp only [detNoNaN, asNumber_no_nan, Bool.true_and]
    rw [Bool.and_eq_true]
    constructor
    · cases hs : decodeScreenLocation
          (readField data ["screenLocation", "screen_location"]) with
      | none => simp
      | some sl => simpa using decodeScreenLocation_no_nan _ _ hs
    · cases hm : decodeMapLocation (readField data ["mapLocation", "map_location"]) with
      | none => simp
      | some ml => simpa using decodeMapLocation_no_nan _ _ hm

lemma decodeDetections_no_nan (v : Value) : detsNoNaN (decodeDetections v) = true := by
  have hlist : ∀ (vs : List Value), detsNoNaN (vs.filterMap decodeDetection) = true := by
    intro vs
    simp only [detsNoNaN, List.all_eq_true]
    intro d hd
    rw [List.mem_filterMap] at hd
    obtain ⟨a, _, ha⟩ := hd
    exact decodeDetection_no_nan a d ha
  unfold decodeDetections
  split
  · simp [detsNoNaN]
  · match v with
    | .varr vs => exact hlist vs
    | .vobj es =>
      cases hk : getKey es "detections" with
      | some dv =>
        match dv with
        | .varr ds => simp only [hk]; exact hlist ds
        | .vnull | .vundef | .vbool _ | .vnum _ | .vstr _ | .vbuf _ | .vview _
        | .vtyped _ _ | .vmap _ | .vobj _ =>
          simp only [hk]
          split
          · cases hd : decodeDetection (.vobj es) with
            | none => simp [hd, detsNoNaN]
            | some d =>
              simp only [hd]
              simpa [detsNoNaN] using decodeDetection_no_nan _ _ hd
          · simp [detsNoNaN]
      | none =>
        simp only [hk]
        split
        · cases hd : decodeDetection (.vobj es) with
          | none => simp [hd, detsNoNaN]
          | some d =>
            simp only [hd]
            simpa [detsNoNaN] using decodeDetection_no_nan _ _ hd
        · simp [detsNoNaN]
    | .vnull | .vundef | .vbool _ | .vnum _ | .vstr _ | .vbuf _ | .vview _
    | .vtyped _ _ | .vmap _ => simp [detsNoNaN]

lemma aiStepPosition_no_nan (data : List (String × Value)) (p : PartialDR)
    (hp : partialNoNaN p = true) : partialNoNaN (aiStepPosition data p) = true := by
  unfold aiStepPosition
  split
  · exact hp
  · split
    · rename_i pv hpv x hx
      simp only [partialNoNaN] at hp ⊢
      simp_all [decodePosition_no_nan _ _ hx]
    · exact hp

lemma aiStepDetections_no_nan (data : List (String × Value)) (p : PartialDR)
    (hp : partialNoNaN p = true) : partialNoNaN (aiStepDetections data p) = true := by
  unfold aiStepDetections
  split
  · exact hp
  · dsimp only
    split
    · simp only [partialNoNaN] at hp ⊢
      simp_all [decodeDetections_no_nan (jsProp data "detections")]
    · exact hp

lemma aiStepStats_no_nan (data : List (String × Value)) (p : PartialDR)
    (hp : partialNoNaN p = true) : partialNoNaN (aiStepStats data p) = true := by
  unfold aiStepStats
  split
  · exact hp
  · split
    · rename_i sv hsv x hx
      simp only [partialNoNaN] at hp ⊢
      simp_all [decodeStats_no_nan _ _ hx]
    · exact hp

lemma aiStepColor_no_nan (data : List (String × Value)) (p : PartialDR)
    (hp : partialNoNaN p = true) : partialNoNaN (aiStepColor data p) = true := by
  unfold aiStepColor
  split
  · exact hp
  · split
    · rename_i cv hcv x hx
      simp only [partialNoNaN] at hp ⊢
      simp_all [decodeColor_no_nan _ _ hx]
    · exact hp

lemma aiStepDepth_no_nan (data : List (String × Value)) (p : PartialDR)
    (hp : partialNoNaN p = true) : partialNoNaN (aiStepDepth data p) = true := by
  unfold aiStepDepth
  split
  · exact hp
  · split
    · rename_i cv hcv x hx
      simp only [partialNoNaN] at hp ⊢
      simp_all [decodeColor_no_nan _ _ hx]
    · exact hp

lemma decodeAIRecord_no_nan (v : Value) (p : PartialDR)
    (h : decodeAIRecord v = some p) : partialNoNaN p = true := by
  match hr : resolveRecord v with
  | none => simp [decodeAIRecord, hr] at h
  | some data =>
    simp only [decodeAIRecord, hr] at h
    split at h
    · exact absurd h (by simp)
    · simp only [Option.some.injEq] at h
      rw [← h]
      exact aiStepDepth_no_nan _ _ (aiStepColor_no_nan _ _ (aiStepStats_no_nan _ _
        (aiStepDetections_no_nan _ _ (aiStepPosition_no_nan _ _ (by rfl)))))

end VexCodec

namespace VexCodec

lemma drNoNaN_empty : drNoNaN {} = true := rfl

lemma assignDefined_no_nan (t : DataResponse) (p : PartialDR)
    (ht : drNoNaN t = true) (hp : partialNoNaN p = true) :
    drNoNaN (assignDefined t p) = true := by
  unfold assignDefined
  simp only [partialNoNaN, Bool.and_eq_true] at hp
  obtain ⟨⟨⟨⟨hp1, hp2⟩, hp3⟩, hp4⟩, hp5⟩ := hp
  cases hpp : p.position <;> cases hpd : p.detections <;> cases hps : p.stats <;>
    cases hpc : p.color <;> cases hpe : p.depth <;>
    simp_all [drNoNaN]

lemma applyOffsetHandler_no_nan (t : DataResponse) (off : OffsetT)
    (origin : Option String) (ht : drNoNaN t = true) (ho : offsetNoNaN off = true) :
    drNoNaN (applyOffsetHandler t off origin) = true := by
  unfold applyOffsetHandler
  have hslot : drNoNaN
      (if falsyProp t.cameraOffset = true then { t with cameraOffset := .jval off }
       else if falsyProp t.gpsOffset = true then { t with gpsOffset := .jval off }
       else t) = true := by
    split
    · simp_all [drNoNaN]
    · split
      · simp_all [drNoNaN]
      · exact ht
  dsimp only
  split
  · split
    · split
      · simp_all [drNoNaN]
      · split
        · simp_all [drNoNaN]
        · exact hslot
    · exact hslot
  · exact hslot

lemma applyHandler_no_nan (k : RecordKind) (t : DataResponse) (record : Value)
    (origin : Option String) (ht : drNoNaN t = true) :
    drNoNaN (applyHandler k t record origin) = true := by
  cases k
  case aiRecord =>
    simp only [applyHandler]
    cases hd : decodeAIRecord record with
    | none => simpa using ht
    | some p =>
      simp only
      exact assignDefined_no_nan t p ht (decodeAIRecord_no_nan _ _ hd)
  case position =>
    simp only [applyHandler]
    cases hd : decodePosition record with
    | none => simpa using ht
    | some p =>
      have h2 := decodePosition_no_nan _ _ hd
      simp_all [drNoNaN]
  case offset =>
    simp only [applyHandler]
    cases hd : decodeOffset record with
    | none => simpa using ht
    | some o =>
      simp only
      exact applyOffsetHandler_no_nan t o origin ht (decodeOffset_no_nan _ _ hd)
  case statistics =>
    simp only [applyHandler]
    cases hd : decodeStats record with
    | none => simpa using ht
    | some s =>
      have h2 := decodeStats_no_nan _ _ hd
      simp_all [drNoNaN]
  case colorCorrection =>
    simp only [applyHandler]
    cases hd : decodeColorCorrection record with
    | none => simpa using ht
    | some c =>
      have h2 := decodeColorCorrection_no_nan _ _ hd
      simp_all [drNoNaN]
  case detection =>
    simp only [applyHandler]
    cases hd : decodeDetection record with
    | none => simpa using ht
    | some d =>
      have h2 := decodeDetection_no_nan _ _ hd
      have hcur : detsNoNaN (match t.detections with | .jval l => l | _ => []) = true := by
        simp only [drNoNaN, Bool.and_eq_true] at ht
        cases hdet : t.detections <;> simp_all [detsNoNaN]
      have happ : detsNoNaN ((match t.detections with | .jval l => l | _ => []) ++ [d])
          = true := by
        simp only [detsNoNaN, List.all_append] at hcur ⊢
        simp_all [detsNoNaN]
      simp only [drNoNaN, Bool.and_eq_true] at ht ⊢
      simp_all [drNoNaN]
  case imageDetection => simpa only [applyHandler] using ht
  case mapDetection => simpa only [applyHandler] using ht
  case color =>
    simp only [applyHandler]
    cases hd : decodeColor record with
    | none => simpa using ht
    | some c =>
      have h2 := decodeColor_no_nan _ _ hd
      dsimp only
      split <;> simp_all [drNoNaN]
  case image =>
    simp only [applyHandler]
    cases hd : decodeImage record with
    | none => simpa using ht
    | some im =>
      have h2 := decodeImage_no_nan _ _ hd
      have h3 : colorNoNaN { image := some im } = true := by simpa [colorNoNaN] using h2
      dsimp only
      split <;> simp_all [drNoNaN]

lemma mergeRecord_no_nan (t : DataResponse) (record : Value) (origin : Option String)
    (t2 : DataResponse) (hm : mergeRecord t record origin = .ok t2)
    (ht : drNoNaN t = true) : drNoNaN t2 = true := by
  unfold mergeRecord at hm
  split at hm
  · simp only [Except.ok.injEq] at hm
    rw [← hm]
    exact applyHandler_no_nan _ _ _ _ ht
  · split at hm
    · simp at hm
    · simp only [Except.ok.injEq] at hm
      rw [← hm]
      exact ht

lemma mergeKeyValueCore_no_nan (t : DataResponse) (k : String) (v : Value)
    (t2 : DataResponse) (hcore : mergeKeyValueCore t k v = some t2)
    (ht : drNoNaN t = true) : drNoNaN t2 = true := by
  unfold mergeKeyValueCore at hcore
  cases hck : classifyKey k
  case kcommand =>
    rw [hck] at hcore
    simp only [Option.some.injEq] at hcore
    rw [← hcore]
    split <;> simp_all [drNoNaN]
  case kvalid =>
    rw [hck] at hcore
    simp only [Option.some.injEq] at hcore
    rw [← hcore]
    simp_all [drNoNaN]
  case kcameraOffset =>
    rw [hck] at hcore
    simp only [Option.some.injEq] at hcore
    rw [← hcore]
    cases hd : decodeOffset v with
    | none => simp_all [drNoNaN, propOf]
    | some o =>
      have h2 := decodeOffset_no_nan _ _ hd
      simp_all [drNoNaN, propOf]
  case kgpsOffset =>
    rw [hck] at hcore
    simp only [Option.some.injEq] at hcore
    rw [← hcore]
    cases hd : decodeOffset v with
    | none => simp_all [drNoNaN, propOf]
    | some o =>
      have h2 := decodeOffset_no_nan _ _ hd
      simp_all [drNoNaN, propOf]
  case kcolorCorrection =>
    rw [hck] at hcore
    simp only [Option.some.injEq] at hcore
    rw [← hcore]
    cases hd : decodeColorCorrection v with
    | none => simp_all [drNoNaN, propOf]
    | some c =>
      have h2 := decodeColorCorrection_no_nan _ _ hd
      simp_all [drNoNaN, propOf]
  case kcolor =>
    rw [hck] at hcore
    simp only [Option.some.injEq] at hcore
    rw [← hcore]
    cases hd : decodeColor v with
    | none => simp_all [drNoNaN, propOf]
    | some c =>
      have h2 := decodeColor_no_nan _ _ hd
      simp_all [drNoNaN, propOf]
  case kdepth =>
    rw [hck] at hcore
    simp only [Option.some.injEq] at hcore
    rw [← hcore]
    cases hd : decodeColor v with
    | none => simp_all [drNoNaN, propOf]
    | some c =>
      have h2 := decodeColor_no_nan _ _ hd
      simp_all [drNoNaN, propOf]
  case kdetections =>
    rw [hck] at hcore
    simp only [Option.some.injEq] at hcore
    rw [← hcore]
    have h2 := decodeDetections_no_nan v
    simp_all [drNoNaN]
  case kposition =>
    rw [hck] at hcore
    simp only [Option.some.injEq] at hcore
    rw [← hcore]
    cases hd : decodePosition v with
    | none => simp_all [drNoNaN, propOf]
    | some p =>
      have h2 := decodePosition_no_nan _ _ hd
      simp_all [drNoNaN, propOf]
  case kstats =>
    rw [hck] at hcore
    simp only [Option.some.injEq] at hcore
    rw [← hcore]
    cases hd : decodeStats v with
    | none => simp_all [drNoNaN, propOf]
    | some s =>
      have h2 := decodeStats_no_nan _ _ hd
      simp_all [drNoNaN, propOf]
  case kother =>
    rw [hck] at hcore
    exact absurd hcore (by simp)

lemma merge_no_nan (n : ℕ) :
    (∀ (t t2 : DataResponse) (v : Value) (origin : Option String), sizeOf v ≤ n →
      mergeValue t v origin = .ok t2 → drNoNaN t = true → drNoNaN t2 = true) ∧
    (∀ (t t2 : DataResponse) (es : List (String × Value)),
      ((es.map (fun kv => sizeOf kv.2)).sum) ≤ n →
      mergeKVList t es = .ok t2 → drNoNaN t = true → drNoNaN t2 = true) ∧
    (∀ (t t2 : DataResponse) (k : String) (v : Value), sizeOf v ≤ n →
      mergeKeyValue t k v = .ok t2 → drNoNaN t = true → drNoNaN t2 = true) := by
  induction n using Nat.strong_induction_on with
  | _ n ih =>
    have hV : ∀ (t t2 : DataResponse) (v : Value) (origin : Option String),
        sizeOf v ≤ n → mergeValue t v origin = .ok t2 →
        drNoNaN t = true → drNoNaN t2 = true := by
      intro t t2 v origin hsz hm ht
      unfold mergeValue at hm
      split at hm
      · simp only [Except.ok.injEq] at hm
        rw [← hm]; exact ht
      · split at hm
        · exact mergeRecord_no_nan t v origin t2 hm ht
        · have hlt := mergeEntries_size v
          have hpos := value_sizeOf_pos v
          exact ((ih (n - 1) (by omega)).2.1) t t2 (mergeEntries v) (by omega) hm ht
    have hK : ∀ (t t2 : DataResponse) (k : String) (v : Value), sizeOf v ≤ n →
        mergeKeyValue t k v = .ok t2 → drNoNaN t = true → drNoNaN t2 = true := by
      intro t t2 k v hsz hm ht
      rw [mergeKeyValue] at hm
      cases hcore : mergeKeyValueCore t k v with
      | some t3 =>
        rw [hcore] at hm
        simp only [Except.ok.injEq] at hm
        rw [← hm]
        exact mergeKeyValueCore_no_nan t k v t3 hcore ht
      | none =>
        rw [hcore] at hm
        exact hV t t2 v (some k) hsz hm ht
    have hL : ∀ (t t2 : DataResponse) (es : List (String × Value)),
        ((es.map (fun kv => sizeOf kv.2)).sum) ≤ n →
        mergeKVList t es = .ok t2 → drNoNaN t = true → drNoNaN t2 = true := by
      intro t t2 es
      induction es generalizing t with
      | nil =>
        intro _ hm ht
        simp only [mergeKVList, Except.ok.injEq] at hm
        rw [← hm]; exact ht
      | cons kv rest ihes =>
        intro hsz hm ht
        match kv with
        | (k, v) =>
          simp only [mergeKVList] at hm
          simp only [List.map_cons, List.sum_cons] at hsz
          cases hkv : mergeKeyValue t k v with
          | error e => rw [hkv] at hm; simp at hm
          | ok t3 =>
            rw [hkv] at hm
            exact ihes t3 (by omega) hm (hK t t3 k v (by omega) hkv ht)
    exact ⟨hV, hL, hK⟩

end VexCodec

namespace VexCodec

lemma mergeSeq_no_nan (es : List Value) : ∀ (t t2 : DataResponse),
    mergeSeq t es = .ok t2 → drNoNaN t = true → drNoNaN t2 = true := by
  induction es with
  | nil =>
    intro t t2 hm ht
    simp only [mergeSeq, Except.ok.injEq] at hm
    rw [← hm]; exact ht
  | cons e rest ihe =>
    intro t t2 hm ht
    simp only [mergeSeq] at hm
    cases hstep : (if truthy e && isObjectLike e && objHasName e then
        mergeRecord t e none else mergeValue t e none) with
    | error err => rw [hstep] at hm; simp at hm
    | ok t3 =>
      rw [hstep] at hm
      have ht3 : drNoNaN t3 = true := by
        by_cases hc : (truthy e && isObjectLike e && objHasName e) = true
        · rw [if_pos hc] at hstep
          exact mergeRecord_no_nan t e none t3 hstep ht
        · rw [if_neg hc] at hstep
          exact (merge_no_nan (sizeOf e)).1 t t3 e none (le_refl _) hstep ht
      exact ihe t3 t2 hm ht3

lemma buildDataResponse_no_nan (raw : Value) (dr : DataResponse)
    (h : buildDataResponse raw = .ok (some dr)) : drNoNaN dr = true := by
  have hflat : ∀ (v : Value) (t2 : DataResponse),
      mergeKVList {} (mergeEntries v) = .ok t2 → drNoNaN t2 = true :=
    fun v t2 hm =>
      (merge_no_nan _).2.1 {} t2 (mergeEntries v) (le_refl _) hm drNoNaN_empty
  match raw with
  | .vnull => simp [buildDataResponse] at h
  | .vundef => simp [buildDataResponse] at h
  | .varr entries =>
    simp only [buildDataResponse] at h
    cases hs : mergeSeq {} entries with
    | error e => rw [hs] at h; simp at h
    | ok t =>
      rw [hs] at h
      simp only [Except.ok.injEq, Option.some.injEq] at h
      rw [← h]
      exact mergeSeq_no_nan entries {} t hs drNoNaN_empty
  | .vbool b => simp [buildDataResponse, isObjectLike] at h
  | .vnum m => simp [buildDataResponse, isObjectLike] at h
  | .vstr s => simp [buildDataResponse, isObjectLike] at h
  | .vbuf bs =>
    simp only [buildDataResponse, isObjectLike, objHasName, Bool.false_eq_true,
      if_true, if_false] at h
    cases hm : mergeKVList {} (mergeEntries (Value.vbuf bs)) with
    | error e => rw [hm] at h; simp at h
    | ok t =>
      rw [hm] at h
      simp only [Except.ok.injEq, Option.some.injEq] at h
      rw [← h]
      exact hflat (.vbuf bs) t hm
  | .vview bs =>
    simp only [buildDataResponse, isObjectLike, objHasName, Bool.false_eq_true,
      if_true, if_false] at h
    cases hm : mergeKVList {} (mergeEntries (Value.vview bs)) with
    | error e => rw [hm] at h; simp at h
    | ok t =>
      rw [hm] at h
      simp only [Except.ok.injEq, Option.some.injEq] at h
      rw [← h]
      exact hflat (.vview bs) t hm
  | .vtyped k bs =>
    simp only [buildDataResponse, isObjectLike, objHasName, Bool.false_eq_true,
      if_true, if_false] at h
    cases hm : mergeKVList {} (mergeEntries (Value.vtyped k bs)) with
    | error e => rw [hm] at h; simp at h
    | ok t =>
      rw [hm] at h
      simp only [Except.ok.injEq, Option.some.injEq] at h
      rw [← h]
      exact hflat (.vtyped k bs) t hm
  | .vmap es =>
    simp only [buildDataResponse, isObjectLike, objHasName, Bool.false_eq_true,
      if_true, if_false] at h
    cases hm : mergeKVList {} (mergeEntries (Value.vmap es)) with
    | error e => rw [hm] at h; simp at h
    | ok t =>
      rw [hm] at h
      simp only [Except.ok.injEq, Option.some.injEq] at h
      rw [← h]
      exact hflat (.vmap es) t hm
  | .vobj es =>
    simp only [buildDataResponse, isObjectLike, if_true] at h
    split at h
    · cases hm : mergeRecord {} (.vobj es) none with
      | error e => rw [hm] at h; simp at h
      | ok t =>
        rw [hm] at h
        simp only [Except.ok.injEq, Option.some.injEq] at h
        rw [← h]
        exact mergeRecord_no_nan {} (.vobj es) none t hm drNoNaN_empty
    · cases hm : mergeKVList {} (mergeEntries (Value.vobj es)) with
      | error e => rw [hm] at h; simp at h
      | ok t =>
        rw [hm] at h
        simp only [Except.ok.injEq, Option.some.injEq] at h
        rw [← h]
        exact hflat (.vobj es) t hm

/-- C3 (amended): for every input accepted by the inbound decode path
(`deserializeDataResponse`), every numeric field of the resulting `DataResponse`
and of its nested records is either a non-NaN number or absent: NaN never
appears. (The original claim also excluded non-finite floats such as Infinity;
that part is refuted by `C3_no_nan_counterexample` below, since `asNumber`
only filters NaN.) -/
theorem C3_no_nan_amended (payload : Value) (dr : DataResponse)
    (h : deserializeDataResponse payload = .ok (some dr)) : drNoNaN dr = true := by
  match payload with
  | .vnull => simp [deserializeDataResponse] at h
  | .vundef => simp [deserializeDataResponse] at h
  | .vbool b => exact buildDataResponse_no_nan _ _ h
  | .vnum n => exact buildDataResponse_no_nan _ _ h
  | .vstr s => exact buildDataResponse_no_nan _ _ h
  | .vbuf bs => exact buildDataResponse_no_nan _ _ h
  | .vview bs => exact buildDataResponse_no_nan _ _ h
  | .vtyped k bs => exact buildDataResponse_no_nan _ _ h
  | .varr vs => exact buildDataResponse_no_nan _ _ h
  | .vmap es => exact buildDataResponse_no_nan _ _ h
  | .vobj es => exact buildDataResponse_no_nan _ _ h

/-- Witness for C3 (amended): a concrete successful decode whose result satisfies
the NaN-free predicate `drNoNaN`. -/
theorem C3_no_nan_amended_witness :
    deserializeDataResponse (.vobj [("position", Value.vobj [("x", Value.vnum (.fin 1))])])
      = .ok (some { position := .jval { x := some (.fin 1) } }) ∧
    drNoNaN { position := .jval { x := some (.fin 1) } } = true := by
  have hcomp : deserializeDataResponse
      (.vobj [("position", Value.vobj [("x", Value.vnum (.fin 1))])])
      = .ok (some { position := .jval { x := some (.fin 1) } }) := by
    have hnorm : normalize (.vobj [("position", Value.vobj [("x", Value.vnum (.fin 1))])])
        = .vobj [("position", Value.vobj [("x", Value.vnum (.fin 1))])] := by
      simp [normalize, normalizeEntries, containerKeys, hasKey]
    have hcore : mergeKeyValueCore {} "position" (Value.vobj [("x", Value.vnum (.fin 1))])
        = some { position := propOf (decodePosition (Value.vobj [("x", Value.vnum (.fin 1))])) } := by
      simp [mergeKeyValueCore, classifyKey]
    simp only [deserializeDataResponse, unwrapSocketMessagePayload, hnorm]
    simp only [buildDataResponse, isObjectLike, objHasName, hasKey, mergeEntries]
    norm_num [mergeKVList, mergeKeyValue, hcore, decodePosition, resolveRecord, hasKey,
      readField, asNumber, asBoolean, JNum.isNaNb, propOf]
    simp [hasKey, getKey]
  exact ⟨hcomp, C3_no_nan_amended _ _ hcomp⟩

/-- Counterexample to the original C3: a payload carrying Infinity in
`position.x` decodes successfully and the non-finite value Infinity flows into
the snapshot's numeric field, so numeric fields are not always finite-or-absent. -/
theorem C3_no_nan_counterexample :
    deserializeDataResponse (.vobj [("position", Value.vobj [("x", Value.vnum (.inf false))])])
      = .ok (some { position := .jval { x := some (.inf false) } }) ∧
    (JNum.inf false).isFiniteB = false := by
  constructor
  · have hnorm : normalize (.vobj [("position", Value.vobj [("x", Value.vnum (.inf false))])])
        = .vobj [("position", Value.vobj [("x", Value.vnum (.inf false))])] := by
      simp [normalize, normalizeEntries, containerKeys, hasKey]
    have hcore : mergeKeyValueCore {} "position" (Value.vobj [("x", Value.vnum (.inf false))])
        = some { position := propOf (decodePosition (Value.vobj [("x", Value.vnum (.inf false))])) } := by
      simp [mergeKeyValueCore, classifyKey]
    simp only [deserializeDataResponse, unwrapSocketMessagePayload, hnorm]
    simp only [buildDataResponse, isObjectLike, objHasName, hasKey, mergeEntries]
    norm_num [mergeKVList, mergeKeyValue, hcore, decodePosition, resolveRecord, hasKey,
      readField, asNumber, asBoolean, JNum.isNaNb, propOf]
    simp [hasKey, getKey]
  · rfl

end VexCodec


namespace VexCodec

/-- Spec-worded round-trip image for `Offset`: the record with each absent optional
field replaced by the documented zero-value default (0 for numbers, empty text). -/
def offsetRTSpec (o : OffsetT) : OffsetT :=
  { off_x := some (o.off_x.getD (.fin 0)),
    off_y := some (o.off_y.getD (.fin 0)),
    off_z := some (o.off_z.getD (.fin 0)),
    unit := some (o.unit.getD ""),
    heading_offset := some (o.heading_offset.getD (.fin 0)),
    elevation_offset := some (o.elevation_offset.getD (.fin 0)) }

/-- Spec-worded round-trip image for `Statistics` (defaults 0 / false). -/
def statsRTSpec (s : StatisticsT) : StatisticsT :=
  { fps := some (s.fps.getD (.fin 0)),
    invoke_time := some (s.invoke_time.getD (.fin 0)),
    video_width := some (s.video_width.getD (.fin 0)),
    video_height := some (s.video_height.getD (.fin 0)),
    run_time := some (s.run_time.getD (.fin 0)),
    gps_connected := some (s.gps_connected.getD false),
    cpu_temp := some (s.cpu_temp.getD (.fin 0)) }

/-- Spec-worded round-trip image for `ColorCorrection` (defaults 0). -/
def ccRTSpec (c : ColorCorrectionT) : ColorCorrectionT :=
  { h := some (c.h.getD (.fin 0)),
    s := some (c.s.getD (.fin 0)),
    v := some (c.v.getD (.fin 0)) }

/-- Spec-worded round-trip image for `ImageDetection` (defaults 0). -/
def screenRTSpec (l : ScreenLocationT) : ScreenLocationT :=
  { x := some (l.x.getD (.fin 0)),
    y := some (l.y.getD (.fin 0)),
    width := some (l.width.getD (.fin 0)),
    height := some (l.height.getD (.fin 0)) }

/-- Round-trip image for `Position`: defaults 0 on the numeric fields, but the
`connected` flag is recomputed from the (defaulted) status word's connected bit, not
round-tripped. -/
def positionRTSpec (p : PositionT) : PositionT :=
  { status := some (p.status.getD (.fin 0)),
    x := some (p.x.getD (.fin 0)),
    y := some (p.y.getD (.fin 0)),
    z := some (p.z.getD (.fin 0)),
    azimuth := some (p.azimuth.getD (.fin 0)),
    elevation := some (p.elevation.getD (.fin 0)),
    rotation := some (p.rotation.getD (.fin 0)),
    connected := some (statusConnectedBit (p.status.getD (.fin 0))) }

lemma asNumber_getD (w : Option JNum) (h : noNaNopt w = true) :
    asNumber (.vnum (w.getD (.fin 0))) = some (w.getD (.fin 0)) := by
  cases w with
  | none => simp [asNumber, JNum.isNaNb]
  | some n =>
    simp only [noNaNopt] at h
    rw [Bool.not_eq_true'] at h
    simp [asNumber, h]

lemma roundtrip_offset (o : OffsetT) (h : offsetNoNaN o = true) :
    (encodeRecord "Offset" (.offset o)).bind decodeRecord
      = .ok (.decoded (some (.offset (offsetRTSpec o)))) := by
  simp only [offsetNoNaN, Bool.and_eq_true] at h
  obtain ⟨⟨⟨⟨hx, hy⟩, hz⟩, hh⟩, he⟩ := h
  simp [encodeRecord, parseKind, Except.bind, decodeRecord, jsGetProp, envelopeOf,
    cleanPayload, rawEncode, encodeOffsetRecord, vnumOf, getKey, jsToString, runDecoder,
    decodeOffset, resolveRecord, hasKey, readField, asString, offsetRTSpec,
    asNumber_getD _ hx, asNumber_getD _ hy, asNumber_getD _ hz,
    asNumber_getD _ hh, asNumber_getD _ he]

lemma roundtrip_stats (s : StatisticsT) (h : statsNoNaN s = true) :
    (encodeRecord "Statistics" (.statistics s)).bind decodeRecord
      = .ok (.decoded (some (.statistics (statsRTSpec s)))) := by
  simp only [statsNoNaN, Bool.and_eq_true] at h
  obtain ⟨⟨⟨⟨⟨h1, h2⟩, h3⟩, h4⟩, h5⟩, h6⟩ := h
  simp [encodeRecord, parseKind, Except.bind, decodeRecord, jsGetProp, envelopeOf,
    cleanPayload, rawEncode, encodeStatsRecord, vnumOf, getKey, jsToString, runDecoder,
    decodeStats, resolveRecord, hasKey, readField, asBoolean, statsRTSpec,
    asNumber_getD _ h1, asNumber_getD _ h2, asNumber_getD _ h3,
    asNumber_getD _ h4, asNumber_getD _ h5, asNumber_getD _ h6]

lemma roundtrip_cc (c : ColorCorrectionT) (h : ccNoNaN c = true) :
    (encodeRecord "ColorCorrection" (.colorCorrection c)).bind decodeRecord
      = .ok (.decoded (some (.colorCorrection (ccRTSpec c)))) := by
  simp only [ccNoNaN, Bool.and_eq_true] at h
  obtain ⟨⟨h1, h2⟩, h3⟩ := h
  simp [encodeRecord, parseKind, Except.bind, decodeRecord, jsGetProp, envelopeOf,
    cleanPayload, rawEncode, encodeColorCorrectionRecord, vnumOf, getKey, jsToString,
    runDecoder, decodeColorCorrection, resolveRecord, hasKey, readField, ccRTSpec,
    asNumber_getD _ h1, asNumber_getD _ h2, asNumber_getD _ h3]

lemma roundtrip_screen (l : ScreenLocationT) (h : screenNoNaN l = true) :
    (encodeRecord "ImageDetection" (.imageDetection l)).bind decodeRecord
      = .ok (.decoded (some (.imageDetection (screenRTSpec l)))) := by
  simp only [screenNoNaN, Bool.and_eq_true] at h
  obtain ⟨⟨⟨h1, h2⟩, h3⟩, h4⟩ := h
  simp [encodeRecord, parseKind, Except.bind, decodeRecord, jsGetProp, envelopeOf,
    cleanPayload, rawEncode, encodeImageDetectionRecord, vnumOf, getKey, jsToString,
    runDecoder, decodeScreenLocation, resolveRecord, hasKey, readField, screenRTSpec,
    asNumber_getD _ h1, asNumber_getD _ h2, asNumber_getD _ h3, asNumber_getD _ h4]

lemma roundtrip_position (p : PositionT) (h : posNoNaN p = true) :
    (encodeRecord "Position" (.position p)).bind decodeRecord
      = .ok (.decoded (some (.position (positionRTSpec p)))) := by
  simp only [posNoNaN, Bool.and_eq_true] at h
  obtain ⟨⟨⟨⟨⟨⟨hst, h1⟩, h2⟩, h3⟩, h4⟩, h5⟩, h6⟩ := h
  simp [encodeRecord, parseKind, Except.bind, decodeRecord, jsGetProp, envelopeOf,
    cleanPayload, rawEncode, encodePositionRecord, vnumOf, getKey, jsToString,
    runDecoder, decodePosition, resolveRecord, hasKey, readField, positionRTSpec,
    asNumber_getD _ hst, asNumber_getD _ h1, asNumber_getD _ h2, asNumber_getD _ h3,
    asNumber_getD _ h4, asNumber_getD _ h5, asNumber_getD _ h6]

/-- C1 (amended): the round-trip-with-defaults law holds for the flat record kinds
Offset, Statistics, ColorCorrection and ImageDetection (absent numeric fields come
back as 0, absent text as empty text, absent booleans as false), provided no stored
number is NaN; for Position the law holds on every field except `connected`, which is
recomputed from the connected bit of the (defaulted) status word instead of being
round-tripped.  The original claim over all kinds is refuted by
`C1_roundtrip_counterexample`. -/
theorem C1_roundtrip_amended (o : OffsetT) (s : StatisticsT) (c : ColorCorrectionT)
    (l : ScreenLocationT) (p : PositionT)
    (ho : offsetNoNaN o = true) (hs : statsNoNaN s = true) (hc : ccNoNaN c = true)
    (hl : screenNoNaN l = true) (hp : posNoNaN p = true) :
    (encodeRecord "Offset" (.offset o)).bind decodeRecord
        = .ok (.decoded (some (.offset (offsetRTSpec o)))) ∧
    (encodeRecord "Statistics" (.statistics s)).bind decodeRecord
        = .ok (.decoded (some (.statistics (statsRTSpec s)))) ∧
    (encodeRecord "ColorCorrection" (.colorCorrection c)).bind decodeRecord
        = .ok (.decoded (some (.colorCorrection (ccRTSpec c)))) ∧
    (encodeRecord "ImageDetection" (.imageDetection l)).bind decodeRecord
        = .ok (.decoded (some (.imageDetection (screenRTSpec l)))) ∧
    (encodeRecord "Position" (.position p)).bind decodeRecord
        = .ok (.decoded (some (.position (positionRTSpec p)))) :=
  ⟨roundtrip_offset o ho, roundtrip_stats s hs, roundtrip_cc c hc,
   roundtrip_screen l hl, roundtrip_position p hp⟩

/-- Witness for C1 (amended): concrete records round-trip as stated. -/
theorem C1_roundtrip_amended_witness :
    offsetNoNaN { off_x := some (.fin 2) } = true ∧
    (encodeRecord "Offset" (.offset { off_x := some (.fin 2) })).bind decodeRecord
      = .ok (.decoded (some (.offset (offsetRTSpec { off_x := some (.fin 2) })))) ∧
    (encodeRecord "Statistics" (.statistics { fps := some (.fin 30) })).bind decodeRecord
      = .ok (.decoded (some (.statistics (statsRTSpec { fps := some (.fin 30) })))) := by
  have h := C1_roundtrip_amended { off_x := some (.fin 2) } { fps := some (.fin 30) }
    {} {} {} rfl rfl rfl rfl rfl
  exact ⟨rfl, h.1, h.2.1⟩

/-- Counterexample to the original C1: a Position record with an explicit
`connected := true` and no status does not round-trip — the decoder recomputes
`connected` from the defaulted status word 0, yielding false. -/
theorem C1_roundtrip_counterexample :
    (encodeRecord "Position" (.position { connected := some true })).bind decodeRecord
      = .ok (.decoded (some (.position (positionRTSpec { connected := some true })))) ∧
    (positionRTSpec { connected := some true }).connected = some false ∧
    ({ connected := some true } : PositionT).connected = some true := by
  refine ⟨roundtrip_position { connected := some true } rfl, ?_, rfl⟩
  simp [positionRTSpec, statusConnectedBit, toUint32, STATUS_CONNECTED, jsTrunc]

end VexCodec

namespace VexCodec

mutual

/-- Canonical form for `normalize`: no `ArrayBuffer`, `DataView` or `Map` node, no
container-shaped object, and no pair-list-shaped sequence, recursively.  These are
exactly the shapes on which `normalize` rewrites the top of the tree instead of
copying it. -/
def goodVal : Value → Bool
  | .vnull => true
  | .vundef => true
  | .vbool _ => true
  | .vnum _ => true
  | .vstr _ => true
  | .vtyped _ _ => true
  | .vbuf _ => false
  | .vview _ => false
  | .vmap _ => false
  | .varr vs => !isPossibleObj vs && goodList vs
  | .vobj es => !containerKeys es && goodEntries es
termination_by v => (sizeOf v, 0)
decreasing_by all_goals (first | omega | (simp_wf; omega))

/-- `goodVal` on every element of a sequence. -/
def goodList : List Value → Bool
  | [] => true
  | v :: rest => goodVal v && goodList rest
termination_by l => (sizeOf l, 1)
decreasing_by all_goals (first | omega | (simp_wf; omega))

/-- `goodVal` on every entry value of an object. -/
def goodEntries : List (String × Value) → Bool
  | [] => true
  | (_, v) :: rest => goodVal v && goodEntries rest
termination_by l => (sizeOf l, 1)
decreasing_by all_goals (first | omega | (simp_wf; omega))

end

lemma goodNorm (n : ℕ) :
    (∀ v : Value, sizeOf v ≤ n → goodVal v = true → normalize v = v) ∧
    (∀ l : List Value, sizeOf l ≤ n → goodList l = true → normalizeList l = l) ∧
    (∀ es : List (String × Value), sizeOf es ≤ n → goodEntries es = true →
      normalizeEntries es = es) := by
  induction n using Nat.strong_induction_on with
  | _ n ih =>
    have hV : ∀ v : Value, sizeOf v ≤ n → goodVal v = true → normalize v = v := by
      intro v hsz hg
      match v with
      | .vnull => simp [normalize]
      | .vundef => simp [normalize]
      | .vbool b => simp [normalize]
      | .vnum m => simp [normalize]
      | .vstr s => simp [normalize]
      | .vtyped k bs => simp [normalize]
      | .vbuf bs => simp [goodVal] at hg
      | .vview bs => simp [goodVal] at hg
      | .vmap es => simp [goodVal] at hg
      | .varr vs =>
        simp only [goodVal, Bool.and_eq_true] at hg
        obtain ⟨hnp, hgl⟩ := hg
        have hnp' : isPossibleObj vs = false := by simpa using hnp
        have hvsz : sizeOf (Value.varr vs) = 1 + sizeOf vs := by simp
        have hsub : sizeOf vs < n := by omega
        have hrec := (ih (sizeOf vs) hsub).2.1 vs le_rfl hgl
        simp [normalize, hnp', hrec]
      | .vobj es =>
        simp only [goodVal, Bool.and_eq_true] at hg
        obtain ⟨hnc, hge⟩ := hg
        have hnc' : containerKeys es = false := by simpa using hnc
        have hvsz : sizeOf (Value.vobj es) = 1 + sizeOf es := by simp
        have hsub : sizeOf es < n := by omega
        have hrec := (ih (sizeOf es) hsub).2.2 es le_rfl hge
        simp [normalize, hnc', hrec]
    have hL : ∀ l : List Value, sizeOf l ≤ n → goodList l = true → normalizeList l = l := by
      intro l
      induction l with
      | nil => intro _ _; simp [normalizeList]
      | cons v rest ihl =>
        intro hsz hg
        simp only [goodList, Bool.and_eq_true] at hg
        obtain ⟨hgv, hgr⟩ := hg
        have hcsz : sizeOf (v :: rest) = 1 + sizeOf v + sizeOf rest := by simp
        have h1 := hV v (by omega) hgv
        have h2 := ihl (by omega) hgr
        simp [normalizeList, h1, h2]
    have hE : ∀ es : List (String × Value), sizeOf es ≤ n → goodEntries es = true →
        normalizeEntries es = es := by
      intro es
      induction es with
      | nil => intro _ _; simp [normalizeEntries]
      | cons kv rest ihe =>
        intro hsz hg
        match kv with
        | (k, v) =>
          simp only [goodEntries, Bool.and_eq_true] at hg
          obtain ⟨hgv, hgr⟩ := hg
          have hcsz : sizeOf ((k, v) :: rest) = 1 + (1 + sizeOf k + sizeOf v) + sizeOf rest := by
            simp
          have h1 := hV v (by omega) hgv
          have h2 := ihe (by omega) hgr
          simp [normalizeEntries, h1, h2]
    exact ⟨hV, hL, hE⟩

/-- C2 (amended): `normalize` is the identity on values in canonical form (no
buffer/view/Map nodes, no container-shaped objects, no pair-list-shaped sequences,
recursively), and in particular it is idempotent at every such value.  Unrestricted
idempotence is false: `C2_idempotence_counterexample` shows a value whose first
normalization manufactures a container-shaped object that the second normalization
decodes further. -/
theorem C2_normalize_identity_on_canonical (v : Value) (h : goodVal v = true) :
    normalize (normalize v) = normalize v ∧ normalize v = v := by
  have hid : normalize v = v := (goodNorm (sizeOf v)).1 v le_rfl h
  refine ⟨?_, hid⟩
  rw [hid]
  exact hid

/-- Witness for C2 (amended): a concrete canonical object is fixed by `normalize`. -/
theorem C2_normalize_identity_witness :
    goodVal (.vobj [("a", .varr [.vnum (.fin 1), .vstr "b"])]) = true ∧
    normalize (normalize (.vobj [("a", .varr [.vnum (.fin 1), .vstr "b"])]))
      = normalize (.vobj [("a", .varr [.vnum (.fin 1), .vstr "b"])]) ∧
    normalize (.vobj [("a", .varr [.vnum (.fin 1), .vstr "b"])])
      = .vobj [("a", .varr [.vnum (.fin 1), .vstr "b"])] := by
  have hg : goodVal (.vobj [("a", .varr [.vnum (.fin 1), .vstr "b"])]) = true := by
    simp [goodVal, goodList, goodEntries, isPossibleObj, isPairEntry, containerKeys,
      hasKey]
  have h := C2_normalize_identity_on_canonical _ hg
  exact ⟨hg, h.1, h.2⟩

/-- Counterexample to the original C2: a sequence of three `[key, value]` pairs
collapses to an object carrying `nd`/`type`/`data` keys, which a second `normalize`
recognises as a tensor container and decodes to the number 7, so
`normalize (normalize v) differs from normalize v`. -/
theorem C2_idempotence_counterexample :
    normalize (.varr [.varr [.vstr "nd", .vbool false],
        .varr [.vstr "type", .vstr "<u1"],
        .varr [.vstr "data", .vtyped .u8 [7]]])
      = .vobj [("nd", .vbool false), ("type", .vstr "<u1"),
          ("data", .vtyped .u8 [7])] ∧
    normalize (.vobj [("nd", .vbool false), ("type", .vstr "<u1"),
        ("data", .vtyped .u8 [7])])
      = .vnum (.fin 7) := by
  constructor
  · simp [normalize, isPossibleObj, isPairEntry, collapseList, objUpsert, jsToString]
  · simp [normalize, containerKeys, hasKey, decodeNumpyContainer, getKey, truthy,
      toUint8ArrayV, parseDtype, strToLower, charToLower, typedLen, typedGet,
      typedToList, normalizePost, TK.width, decodeElem, bytesToNatLE]

end VexCodec
